import Mathlib

/-!
Verification of the daily-digest selection engine of the news aggregator
(`services/api/app/daily_digests.py`, with the schema of `db.py`, the
war-term content filter of `query.py`, and the API validation layer of
`main.py`).

The SQLite tables are embedded as Lean lists of rows; the SQL queries of
`daily_digests.py` become list pipelines (filter / sort / take) over those
lists; `ORDER BY a.interest_score DESC, COALESCE(i.published_at,
i.fetched_at) DESC` becomes an insertion sort with the corresponding
comparator.  ISO-8601 timestamps are embedded as a pair of a calendar-day
number and a time-of-day number: for the fixed-width `YYYY-MM-DDTHH:MM:SS…`
strings the code compares (via `substr(…,1,10)` and full-string
comparison), lexicographic string order coincides with lexicographic order
on (day, time-of-day), and Python's `date.fromisoformat` / `timedelta(days=i)`
arithmetic becomes integer arithmetic on the day number.  `AUTOINCREMENT`
ids are threaded through the state as `next_digest_id` /
`next_digest_item_id` counters, and the wall clock (`_now_iso`) is passed
in as an explicit `now` argument.
-/

namespace Digests

/-- Abstraction of an ISO-8601 timestamp string: `day` encodes the first 10
characters (the calendar day, as produced by `substr(ts, 1, 10)`), `tod`
the remaining suffix.  Lexicographic order on `(day, tod)` mirrors
lexicographic order on the fixed-width strings. -/
structure Timestamp where
  day : Int
  tod : Nat
deriving DecidableEq, Repr

/-- Full-string comparison of two ISO timestamps (used by the `ORDER BY …
DESC` tie-break on `COALESCE(published_at, fetched_at)`). -/
def tsLe (a b : Timestamp) : Bool :=
  a.day < b.day || (a.day == b.day && a.tod ≤ b.tod)

/-- A row of the `items` table (the fields the digest selector reads). -/
structure Item where
  id : Nat
  source_name : String
  url : String
  title : String
  body : String
  published_at : Option Timestamp
  fetched_at : Timestamp
  business_score : Int
  dfo_score : Int
deriving DecidableEq, Repr

/-- A row of the `llm_analyses` table (the fields the digest selector reads). -/
structure Analysis where
  id : Nat
  item_id : Nat
  interest_score : Int
  is_dfo_business : Bool
  title_short : String
  bulletin : String
  summary : String
  why : String
deriving DecidableEq, Repr

/-- Selection params snapshot persisted with the digest
(`DigestParams` dataclass of `daily_digests.py`, same defaults). -/
structure DigestParams where
  top_n : Nat := 5
  prefer_days : Nat := 2
  max_lookback_days : Nat := 60
  min_interest : Int := 5
  min_dfo : Int := 2
  min_business : Int := 2
  exclude_war : Bool := true
  only_dfo_business : Bool := true
deriving DecidableEq, Repr

/-- A row of the `daily_digests` table.  `params_json` keeps the params
snapshot (the code stores it JSON-serialised; the serialisation is
injective on `DigestParams`, so the snapshot value itself is kept). -/
structure DigestRow where
  id : Nat
  day : Int
  created_at : String
  updated_at : String
  params_json : DigestParams
  status : String
  note : String
  script_json : Option String
  script_model : Option String
  script_created_at : Option String
deriving DecidableEq, Repr

/-- A row of the `daily_digest_items` membership table. -/
structure DigestItemRow where
  id : Nat
  digest_id : Nat
  item_id : Nat
  rank : Nat
  added_at : String
deriving DecidableEq, Repr

/-- The database state read and written by the selector. -/
structure DB where
  items : List Item
  llm_analyses : List Analysis
  daily_digests : List DigestRow
  daily_digest_items : List DigestItemRow
  next_digest_id : Nat
  next_digest_item_id : Nat
deriving DecidableEq, Repr

/-! ### The war-term content filter (`query.py`) -/

/-- `WAR_TERMS` of `query.py`. -/
def WAR_TERMS : List String :=
  ["всу", "сво", "украин", "обстрел", "удар", "дрон", "бпла", "fpv",
   "ракет", "пво", "фронт", "боев", "военн", "миномет", "артиллер",
   "снайпер", "пехот", "противник", "тыл", "диверс", "мобилиз", "оккупац"]

/-- `pat` occurs at the head of `l`. -/
def leadsWith : List Char → List Char → Bool
  | [], _ => true
  | _ :: _, [] => false
  | a :: as, b :: bs => a == b && leadsWith as bs

/-- `pat` occurs somewhere inside `l` (SQL `LIKE '%pat%'`). -/
def hasSub (pat : List Char) : List Char → Bool
  | [] => pat.isEmpty
  | c :: rest => leadsWith pat (c :: rest) || hasSub pat rest

/-- SQL `lower(COALESCE(title,'') || ' ' || COALESCE(body,''))`, as a char
list (SQLite's built-in `lower()` folds only ASCII letters, as does
`Char.toLower`). -/
def warHay (i : Item) : List Char :=
  ((i.title ++ " " ++ i.body).toList).map Char.toLower

/-- The item trips one of the `NOT LIKE` war-term conjuncts of
`_exclude_war_where_sql`. -/
def warHit (i : Item) : Bool :=
  WAR_TERMS.any (fun t => hasSub t.toList (warHay i))

/-! ### Candidate selection (`_base_candidates_sql`, `_select_prefer`,
`_select_fallback`) -/

/-- `WITH latest AS (SELECT item_id, MAX(id) … GROUP BY item_id)` joined
back: the analysis row with maximal `id` for the given item, if any. -/
def latestFor (db : DB) (itemId : Nat) : Option Analysis :=
  db.llm_analyses.foldl
    (fun acc a =>
      if a.item_id == itemId then
        match acc with
        | none => some a
        | some b => if b.id < a.id then some a else some b
      else acc)
    none

/-- `i.id NOT IN (SELECT item_id FROM daily_digest_items)`, negated:
the item already appears in some digest. -/
def usedItem (db : DB) (itemId : Nat) : Bool :=
  db.daily_digest_items.any (fun r => r.item_id == itemId)

/-- One candidate row produced by `_base_candidates_sql`: an item joined
with its latest analysis. -/
structure Cand where
  item : Item
  anal : Analysis
deriving DecidableEq, Repr

/-- `COALESCE(i.published_at, i.fetched_at)`. -/
def coalesceTs (i : Item) : Timestamp := i.published_at.getD i.fetched_at

/-- The calendar day of `COALESCE(published_at, fetched_at)`
(`substr(…, 1, 10)`). -/
def candDay (c : Cand) : Int := (coalesceTs c.item).day

/-- The WHERE clause of `_base_candidates_sql`: score thresholds, the
optional `is_dfo_business` and war-exclusion conjuncts, and the global
`NOT IN daily_digest_items` exclusion. -/
def baseEligible (db : DB) (p : DigestParams) (i : Item) (a : Analysis) : Bool :=
  (p.min_business ≤ i.business_score) &&
  (p.min_dfo ≤ i.dfo_score) &&
  (p.min_interest ≤ a.interest_score) &&
  (!p.only_dfo_business || a.is_dfo_business) &&
  (!p.exclude_war || !warHit i) &&
  !usedItem db i.id

/-- The rows returned by `_base_candidates_sql` (in table order; the SQL
attaches no ORDER BY at this level). -/
def baseCandidates (db : DB) (p : DigestParams) : List Cand :=
  db.items.filterMap (fun i =>
    match latestFor db i.id with
    | none => none
    | some a => if baseEligible db p i a then some ⟨i, a⟩ else none)

/-- `ORDER BY a.interest_score DESC, COALESCE(published_at, fetched_at)
DESC`, as a Boolean comparator: `a` may be placed before `b`. -/
def candBefore (a b : Cand) : Bool :=
  b.anal.interest_score < a.anal.interest_score ||
  (b.anal.interest_score == a.anal.interest_score &&
    tsLe (coalesceTs b.item) (coalesceTs a.item))

/-- The ORDER BY comparator as a relation. -/
def candR : Cand → Cand → Prop := fun a b => candBefore a b = true

instance : DecidableRel candR := fun a b =>
  (inferInstance : Decidable (candBefore a b = true))

/-- One fixed ordering realising the ORDER BY clause (SQLite returns some
such ordering; ties are broken by the physical row order of the table). -/
def sortCands (l : List Cand) : List Cand := l.insertionSort candR

/-- `days_in = [day - i for i in range(prefer_days)]` of `_select_prefer`. -/
def preferDays (day : Int) (p : DigestParams) : List Int :=
  (List.range p.prefer_days).map (fun (i : Nat) => day - (i : Int))

/-- `substr(COALESCE(published_at, fetched_at), 1, 10) IN (days_in)`. -/
def inPreferWindow (day : Int) (p : DigestParams) (t : Int) : Bool :=
  (preferDays day p).any (fun x => x == t)

/-- `cutoff_day = day - (prefer_days - 1)` of `_select_fallback`. -/
def fallbackCutoff (day : Int) (p : DigestParams) : Int :=
  day - ((p.prefer_days : Int) - 1)

/-- `min_day = day - (max_lookback_days - 1)` of `_select_fallback`. -/
def fallbackMinDay (day : Int) (p : DigestParams) : Int :=
  day - ((p.max_lookback_days : Int) - 1)

/-- `substr(…,1,10) < cutoff_day AND substr(…,1,10) >= min_day`. -/
def inFallbackWindow (day : Int) (p : DigestParams) (t : Int) : Bool :=
  (t < fallbackCutoff day p) && (fallbackMinDay day p ≤ t)

/-- Base candidates restricted to the preferred window (the WHERE clause of
`_select_prefer`, before ORDER BY / LIMIT). -/
def preferCands (day : Int) (p : DigestParams) (db : DB) : List Cand :=
  (baseCandidates db p).filter (fun c => inPreferWindow day p (candDay c))

/-- Base candidates restricted to the backfill window (the WHERE clause of
`_select_fallback`, before ORDER BY / LIMIT). -/
def fallbackCands (day : Int) (p : DigestParams) (db : DB) : List Cand :=
  (baseCandidates db p).filter (fun c => inFallbackWindow day p (candDay c))

/-- `_select_prefer(day, params, need)`: preferred-window candidates,
ordered, `LIMIT need`. -/
def select_prefer (day : Int) (p : DigestParams) (need : Nat) (db : DB) : List Cand :=
  (sortCands (preferCands day p db)).take need

/-- `_select_fallback(day, params, need)`: backfill-window candidates,
ordered, `LIMIT need`. -/
def select_fallback (day : Int) (p : DigestParams) (need : Nat) (db : DB) : List Cand :=
  (sortCands (fallbackCands day p db)).take need

/-- `compute_diagnostics` counts (read-only). -/
structure Diagnostics where
  candidates_total : Nat
  prefer_bucket : Nat
  fallback_bucket : Nat
deriving DecidableEq, Repr

/-- `compute_diagnostics(day, params)`. -/
def compute_diagnostics (day : Int) (p : DigestParams) (db : DB) : Diagnostics :=
  { candidates_total := (baseCandidates db p).length
    prefer_bucket := (preferCands day p db).length
    fallback_bucket := (fallbackCands day p db).length }

/-! ### The digest store operations -/

/-- `_status_for_count(n, top_n)`. -/
def status_for_count (n top_n : Nat) : String :=
  if top_n ≤ n then "ready" else if n == 0 then "empty" else "partial"

/-- `ensure_daily_digest(day, params)`: get or create the `daily_digests`
row for a day. -/
def ensure_daily_digest (day : Int) (p : DigestParams) (now : String) (db : DB) :
    DigestRow × DB :=
  match db.daily_digests.find? (fun r => r.day == day) with
  | some r => (r, db)
  | none =>
    let r : DigestRow :=
      { id := db.next_digest_id, day := day, created_at := now, updated_at := now,
        params_json := p, status := "draft", note := "", script_json := none,
        script_model := none, script_created_at := none }
    (r, { db with daily_digests := db.daily_digests ++ [r],
                  next_digest_id := db.next_digest_id + 1 })

/-- The membership rows of one digest. -/
def rowsFor (db : DB) (gid : Nat) : List DigestItemRow :=
  db.daily_digest_items.filter (fun r => r.digest_id == gid)

/-- `SELECT COUNT(1) FROM daily_digest_items WHERE digest_id = ?`. -/
def countFor (db : DB) (gid : Nat) : Nat := (rowsFor db gid).length

/-- The rank column of one digest's membership rows (in table order). -/
def ranksOf (db : DB) (gid : Nat) : List Nat :=
  (rowsFor db gid).map (fun r => r.rank)

/-- `ORDER BY di.rank ASC` comparator for the read-back path. -/
def rowRankLe : DigestItemRow → DigestItemRow → Prop := fun a b => a.rank ≤ b.rank

instance : DecidableRel rowRankLe := fun a b =>
  (inferInstance : Decidable (a.rank ≤ b.rank))

/-- `get_digest_by_day(day)`: the digest row together with its membership
rows ordered by rank. -/
def get_digest_by_day (db : DB) (day : Int) : Option (DigestRow × List DigestItemRow) :=
  match db.daily_digests.find? (fun r => r.day == day) with
  | none => none
  | some r => some (r, (rowsFor db r.id).insertionSort rowRankLe)

/-- The `force=True` reset of `create_or_refill_daily_digest`
(lines 274–282): delete the digest's membership rows and reset the digest
row to `status='draft'`, `note=''`, fresh `updated_at`. -/
def forceReset (gid : Nat) (now : String) (db : DB) : DB :=
  { db with
    daily_digest_items := db.daily_digest_items.filter (fun r => !(r.digest_id == gid))
    daily_digests := db.daily_digests.map (fun r =>
      if r.id == gid then { r with updated_at := now, status := "draft", note := "" } else r) }

/-- The insert loop of `create_or_refill_daily_digest` (lines 309–325):
`rank = base_rank + idx`, break once `rank > top_n`, and skip a candidate
whose insert the unique indexes `uq_daily_digest_items_item` /
`uq_daily_digest_items_digest_rank` reject.  Returns the new table, the
next autoincrement id and the `inserted` counter. -/
def insertLoop (gid top_n : Nat) (now : String) (base_rank : Nat) :
    List Cand → Nat → List DigestItemRow → Nat → Nat →
    List DigestItemRow × Nat × Nat
  | [], _, rows, nextId, inserted => (rows, nextId, inserted)
  | c :: rest, idx, rows, nextId, inserted =>
    let rank := base_rank + idx
    if top_n < rank then (rows, nextId, inserted)
    else if rows.any (fun r => r.item_id == c.item.id) ||
            rows.any (fun r => r.digest_id == gid && r.rank == rank) then
      insertLoop gid top_n now base_rank rest (idx + 1) rows nextId inserted
    else
      insertLoop gid top_n now base_rank rest (idx + 1)
        (rows ++ [{ id := nextId, digest_id := gid, item_id := c.item.id,
                    rank := rank, added_at := now }])
        (nextId + 1) (inserted + 1)

/-- The selection phase of `create_or_refill_daily_digest` (lines 291–296):
preferred window first with `LIMIT need`, then the backfill window for the
remaining shortage. -/
def pickedList (day : Int) (p : DigestParams) (need : Nat) (db : DB) : List Cand :=
  if 0 < need then
    let a := select_prefer day p need db
    let need2 := need - a.length
    a ++ (if 0 < need2 then select_fallback day p need2 db else [])
  else []

/-- The result record of `create_or_refill_daily_digest`. -/
structure FillOut where
  digest : DigestRow
  items : List DigestItemRow
  diagnostics : Diagnostics
  changed : Bool
  inserted : Nat
deriving DecidableEq, Repr

/-- `create_or_refill_daily_digest(day, params, refill=…, force=…)`. -/
def create_or_refill_daily_digest (day : Int) (p : DigestParams)
    (refill force : Bool) (now : String) (db : DB) : FillOut × DB :=
  let ed := ensure_daily_digest day p now db
  let digest := ed.1
  let db1 := ed.2
  let gid := digest.id
  let cur0 := countFor db1 gid
  let db2 := if force then forceReset gid now db1 else db1
  let cur_count := if force then 0 else cur0
  if p.top_n ≤ cur_count ∨ (0 < cur_count ∧ refill = false ∧ force = false) then
    let out : FillOut :=
      match get_digest_by_day db2 day with
      | some ri => { digest := ri.1, items := ri.2,
                     diagnostics := compute_diagnostics day p db2,
                     changed := false, inserted := 0 }
      | none => { digest := digest, items := [],
                  diagnostics := compute_diagnostics day p db2,
                  changed := false, inserted := 0 }
    (out, db2)
  else
    let need := p.top_n - cur_count
    let picked := pickedList day p need db2
    let base_rank := countFor db2 gid
    let res := insertLoop gid p.top_n now base_rank picked 1
      db2.daily_digest_items db2.next_digest_item_id 0
    let rows2 := res.1
    let nid2 := res.2.1
    let ins := res.2.2
    let new_count := (rows2.filter (fun r => r.digest_id == gid)).length
    let st := status_for_count new_count p.top_n
    let db3 : DB :=
      { db2 with
        daily_digest_items := rows2
        next_digest_item_id := nid2
        daily_digests := db2.daily_digests.map (fun r =>
          if r.id == gid then { r with updated_at := now, status := st } else r) }
    let out : FillOut :=
      match get_digest_by_day db3 day with
      | some ri => { digest := ri.1, items := ri.2,
                     diagnostics := compute_diagnostics day p db3,
                     changed := true, inserted := ins }
      | none => { digest := digest, items := [],
                  diagnostics := compute_diagnostics day p db3,
                  changed := true, inserted := ins }
    (out, db3)

end Digests

namespace Digests

/-! ### Facts about the ORDER BY comparator -/

theorem candBefore_total (a b : Cand) : candBefore a b || candBefore b a := by
  unfold candBefore tsLe
  rcases a with ⟨ia, aa⟩
  rcases b with ⟨ib, ab⟩
  simp only [Bool.or_eq_true, Bool.and_eq_true, decide_eq_true_eq, beq_iff_eq]
  omega

theorem candBefore_trans (a b c : Cand) (h1 : candBefore a b = true)
    (h2 : candBefore b c = true) : candBefore a c = true := by
  unfold candBefore tsLe at *
  simp only [Bool.or_eq_true, Bool.and_eq_true, decide_eq_true_eq, beq_iff_eq] at *
  omega

theorem candBefore_key (a b : Cand) (h1 : candBefore a b = true)
    (h2 : candBefore b a = true) :
    a.anal.interest_score = b.anal.interest_score ∧
      coalesceTs a.item = coalesceTs b.item := by
  unfold candBefore tsLe at h1 h2
  simp only [Bool.or_eq_true, Bool.and_eq_true, decide_eq_true_eq, beq_iff_eq] at h1 h2
  rcases h : coalesceTs a.item with ⟨da, ta⟩
  rcases h' : coalesceTs b.item with ⟨db', tb⟩
  rw [h, h'] at h1 h2
  simp only [Timestamp.mk.injEq]
  simp only [Timestamp.mk.injEq] at h1 h2 ⊢
  omega

instance : IsTotal Cand candR :=
  ⟨fun a b => by
    have := candBefore_total a b
    rcases Bool.or_eq_true_iff.mp this with h | h
    · exact Or.inl h
    · exact Or.inr h⟩

instance : IsTrans Cand candR := ⟨fun a b c => candBefore_trans a b c⟩

theorem sortCands_perm (l : List Cand) : (sortCands l).Perm l :=
  List.perm_insertionSort candR l

theorem sortCands_sorted (l : List Cand) : (sortCands l).Sorted candR :=
  List.sorted_insertionSort candR l

theorem mem_sortCands {l : List Cand} {c : Cand} : c ∈ sortCands l ↔ c ∈ l :=
  List.mem_insertionSort candR

/-! ### The day windows -/

theorem inPreferWindow_iff (day : Int) (p : DigestParams) (t : Int)
    (h : 1 ≤ p.prefer_days) :
    inPreferWindow day p t = true ↔
      (day - ((p.prefer_days : Int) - 1) ≤ t ∧ t ≤ day) := by
  unfold inPreferWindow preferDays
  simp only [List.any_eq_true, List.mem_map, List.mem_range, beq_iff_eq]
  constructor
  · rintro ⟨x, ⟨i, hi, hx⟩, hxt⟩
    omega
  · rintro ⟨h1, h2⟩
    refine ⟨t, ⟨(day - t).toNat, ?_, ?_⟩, rfl⟩ <;> omega

theorem inFallbackWindow_iff (day : Int) (p : DigestParams) (t : Int) :
    inFallbackWindow day p t = true ↔
      (t < day - ((p.prefer_days : Int) - 1) ∧
        day - ((p.max_lookback_days : Int) - 1) ≤ t) := by
  unfold inFallbackWindow fallbackCutoff fallbackMinDay
  simp only [Bool.and_eq_true, decide_eq_true_eq]

theorem windows_disjoint (day : Int) (p : DigestParams) (t : Int)
    (h1 : inPreferWindow day p t = true) : inFallbackWindow day p t = false := by
  unfold inPreferWindow preferDays at h1
  simp only [List.any_eq_true, List.mem_map, List.mem_range, beq_iff_eq] at h1
  obtain ⟨x, ⟨i, hi, hx⟩, hxt⟩ := h1
  unfold inFallbackWindow fallbackCutoff fallbackMinDay
  simp only [Bool.and_eq_false_iff, decide_eq_false_iff_not, not_lt, not_le]
  omega


/-! ### Candidate pool facts -/

theorem mem_baseCandidates {db : DB} {p : DigestParams} {c : Cand}
    (h : c ∈ baseCandidates db p) :
    c.item ∈ db.items ∧ latestFor db c.item.id = some c.anal ∧
      baseEligible db p c.item c.anal = true := by
  unfold baseCandidates at h
  rw [List.mem_filterMap] at h
  obtain ⟨i, hi, hfi⟩ := h
  split at hfi
  · exact absurd hfi (by simp)
  · rename_i a hl
    split at hfi
    · rename_i he
      injection hfi with hc
      subst hc
      exact ⟨hi, hl, he⟩
    · exact absurd hfi (by simp)

theorem baseCandidates_not_used {db : DB} {p : DigestParams} {c : Cand}
    (h : c ∈ baseCandidates db p) : usedItem db c.item.id = false := by
  have h3 := (mem_baseCandidates h).2.2
  unfold baseEligible at h3
  simp only [Bool.and_eq_true, Bool.not_eq_true'] at h3
  exact h3.2

theorem map_filterMap_sublist {α β γ : Type _} (f : α → Option β) (g : β → γ)
    (h : α → γ) (H : ∀ a b, f a = some b → g b = h a) :
    ∀ l : List α, ((l.filterMap f).map g).Sublist (l.map h) := by
  intro l
  induction l with
  | nil => simp
  | cons a l ih =>
    rw [List.filterMap_cons, List.map_cons]
    cases hfa : f a with
    | none => exact ih.cons _
    | some b =>
      rw [List.map_cons, H a b hfa]
      exact ih.cons₂ _

theorem baseCandidates_ids_sublist (db : DB) (p : DigestParams) :
    ((baseCandidates db p).map (fun c => c.item.id)).Sublist
      (db.items.map Item.id) := by
  unfold baseCandidates
  apply map_filterMap_sublist
  intro i c hfc
  split at hfc
  · exact absurd hfc (by simp)
  · split at hfc
    · injection hfc with hc
      subst hc
      rfl
    · exact absurd hfc (by simp)

theorem baseCandidates_ids_nodup {db : DB} {p : DigestParams}
    (h : (db.items.map Item.id).Nodup) :
    ((baseCandidates db p).map (fun c => c.item.id)).Nodup :=
  List.Nodup.sublist (baseCandidates_ids_sublist db p) h

theorem baseCandidates_id_inj {db : DB} {p : DigestParams} {c c' : Cand}
    (h : (db.items.map Item.id).Nodup) (hc : c ∈ baseCandidates db p)
    (hc' : c' ∈ baseCandidates db p) (hid : c.item.id = c'.item.id) : c = c' :=
  List.inj_on_of_nodup_map (baseCandidates_ids_nodup h) hc hc' hid

theorem mem_select_prefer {day : Int} {p : DigestParams} {need : Nat} {db : DB}
    {c : Cand} (h : c ∈ select_prefer day p need db) :
    c ∈ baseCandidates db p ∧ inPreferWindow day p (candDay c) = true := by
  unfold select_prefer at h
  have h1 : c ∈ sortCands (preferCands day p db) :=
    (List.take_sublist _ _).subset h
  rw [mem_sortCands] at h1
  unfold preferCands at h1
  rw [List.mem_filter] at h1
  exact h1

theorem mem_select_fallback {day : Int} {p : DigestParams} {need : Nat} {db : DB}
    {c : Cand} (h : c ∈ select_fallback day p need db) :
    c ∈ baseCandidates db p ∧ inFallbackWindow day p (candDay c) = true := by
  unfold select_fallback at h
  have h1 : c ∈ sortCands (fallbackCands day p db) :=
    (List.take_sublist _ _).subset h
  rw [mem_sortCands] at h1
  unfold fallbackCands at h1
  rw [List.mem_filter] at h1
  exact h1

theorem sorted_take_ids_nodup {l : List Cand}
    (h : (l.map (fun c => c.item.id)).Nodup) (need : Nat) :
    (((sortCands l).take need).map (fun c => c.item.id)).Nodup := by
  have hperm : ((sortCands l).map (fun c => c.item.id)).Perm
      (l.map (fun c => c.item.id)) := (sortCands_perm l).map _
  have hnd : ((sortCands l).map (fun c => c.item.id)).Nodup :=
    hperm.symm.nodup h
  exact List.Nodup.sublist (((sortCands l).take_sublist need).map _) hnd

theorem preferCands_ids_nodup {day : Int} {p : DigestParams} {db : DB}
    (h : (db.items.map Item.id).Nodup) :
    ((preferCands day p db).map (fun c => c.item.id)).Nodup :=
  List.Nodup.sublist ((List.filter_sublist _).map _) (baseCandidates_ids_nodup h)

theorem fallbackCands_ids_nodup {day : Int} {p : DigestParams} {db : DB}
    (h : (db.items.map Item.id).Nodup) :
    ((fallbackCands day p db).map (fun c => c.item.id)).Nodup :=
  List.Nodup.sublist ((List.filter_sublist _).map _) (baseCandidates_ids_nodup h)

theorem mem_pickedList {day : Int} {p : DigestParams} {need : Nat} {db : DB}
    {c : Cand} (h : c ∈ pickedList day p need db) : c ∈ baseCandidates db p := by
  unfold pickedList at h
  split at h
  · rcases List.mem_append.mp h with h1 | h1
    · exact (mem_select_prefer h1).1
    · split at h1
      · exact (mem_select_fallback h1).1
      · exact absurd h1 (by simp)
  · exact absurd h (by simp)

theorem pickedList_ids_nodup {day : Int} {p : DigestParams} {need : Nat} {db : DB}
    (h : (db.items.map Item.id).Nodup) :
    ((pickedList day p need db).map (fun c => c.item.id)).Nodup := by
  unfold pickedList
  split
  · rw [List.map_append, List.nodup_append]
    refine ⟨sorted_take_ids_nodup (preferCands_ids_nodup h) need, ?_, ?_⟩
    · split
      · exact sorted_take_ids_nodup (fallbackCands_ids_nodup h) _
      · simp
    · intro x hx hx'
      split at hx'
      · obtain ⟨c, hc, hcx⟩ := List.mem_map.mp hx
        obtain ⟨c', hc', hcx'⟩ := List.mem_map.mp hx'
        have h1 := mem_select_prefer hc
        have h2 := mem_select_fallback hc'
        have : c = c' :=
          baseCandidates_id_inj h h1.1 h2.1 (by rw [hcx, hcx'])
        subst this
        rw [windows_disjoint day p (candDay c) h1.2] at h2
        exact absurd h2.2 (by simp)
      · exact absurd hx' (by simp)
  · simp

theorem take_dominates {l : List Cand} (k : Nat) {y z : Cand}
    (hy : y ∈ (sortCands l).take k) (hz : z ∈ l)
    (hzn : z ∉ (sortCands l).take k) : candBefore y z = true := by
  have hz' : z ∈ (sortCands l).take k ++ (sortCands l).drop k := by
    rw [List.take_append_drop]
    exact mem_sortCands.mpr hz
  have hp : ((sortCands l).take k ++ (sortCands l).drop k).Pairwise candR := by
    rw [List.take_append_drop]
    exact sortCands_sorted l
  rcases List.mem_append.mp hz' with hzt | hzd
  · exact absurd hzt hzn
  · exact (List.pairwise_append.mp hp).2.2 y hy z hzd

/-! ### The insert loop -/

/-- Specification helper: the membership rows a conflict-free run of the
insert loop appends, with ranks `s, s+1, …` and autoincrement ids
`nid, nid+1, …`. -/
def rankedFrom (gid : Nat) (now : String) : Nat → Nat → List Cand → List DigestItemRow
  | _, _, [] => []
  | nid, s, c :: rest =>
    { id := nid, digest_id := gid, item_id := c.item.id, rank := s, added_at := now } ::
      rankedFrom gid now (nid + 1) (s + 1) rest

theorem rankedFrom_rank_map (gid : Nat) (now : String) :
    ∀ (l : List Cand) (nid s : Nat),
      (rankedFrom gid now nid s l).map (fun r => r.rank) = List.range' s l.length := by
  intro l
  induction l with
  | nil => intro nid s; rfl
  | cons c rest ih =>
    intro nid s
    rw [rankedFrom, List.map_cons, ih, List.length_cons, List.range'_succ]

theorem rankedFrom_item_map (gid : Nat) (now : String) :
    ∀ (l : List Cand) (nid s : Nat),
      (rankedFrom gid now nid s l).map (fun r => r.item_id) =
        l.map (fun c => c.item.id) := by
  intro l
  induction l with
  | nil => intro nid s; rfl
  | cons c rest ih =>
    intro nid s
    rw [rankedFrom, List.map_cons, ih, List.map_cons]

theorem rankedFrom_mem (gid : Nat) (now : String) :
    ∀ (l : List Cand) (nid s : Nat) (r : DigestItemRow),
      r ∈ rankedFrom gid now nid s l →
      r.digest_id = gid ∧ r.added_at = now ∧ s ≤ r.rank ∧ r.rank < s + l.length := by
  intro l
  induction l with
  | nil => intro nid s r h; exact absurd h (by simp [rankedFrom])
  | cons c rest ih =>
    intro nid s r h
    rw [rankedFrom, List.mem_cons] at h
    rcases h with h | h
    · subst h
      refine ⟨rfl, rfl, le_refl _, ?_⟩
      simp
    · obtain ⟨h1, h2, h3, h4⟩ := ih (nid + 1) (s + 1) r h
      refine ⟨h1, h2, by omega, ?_⟩
      rw [List.length_cons]
      omega

theorem rankedFrom_filter_gid (gid : Nat) (now : String) :
    ∀ (l : List Cand) (nid s : Nat),
      (rankedFrom gid now nid s l).filter (fun r => r.digest_id == gid) =
        rankedFrom gid now nid s l := by
  intro l
  induction l with
  | nil => intro nid s; rfl
  | cons c rest ih =>
    intro nid s
    rw [rankedFrom, List.filter_cons]
    simp only [beq_self_eq_true, if_true]
    rw [ih]

theorem rankedFrom_filter_other (gid g : Nat) (now : String) (hg : g ≠ gid) :
    ∀ (l : List Cand) (nid s : Nat),
      (rankedFrom gid now nid s l).filter (fun r => r.digest_id == g) = [] := by
  intro l
  induction l with
  | nil => intro nid s; rfl
  | cons c rest ih =>
    intro nid s
    rw [rankedFrom, List.filter_cons]
    have : (gid == g) = false := by
      simp only [beq_eq_false_iff_ne, ne_eq]
      exact fun hc => hg hc.symm
    simp only [this, Bool.false_eq_true, if_false]
    exact ih (nid + 1) (s + 1)

theorem insertLoop_nodup (gid top_n : Nat) (now : String) (base_rank : Nat) :
    ∀ (picked : List Cand) (idx : Nat) (rows : List DigestItemRow) (nid ins : Nat),
    (rows.map (fun r => r.item_id)).Nodup →
    ((insertLoop gid top_n now base_rank picked idx rows nid ins).1.map
      (fun r => r.item_id)).Nodup := by
  intro picked
  induction picked with
  | nil => intro idx rows nid ins h; exact h
  | cons c rest ih =>
    intro idx rows nid ins h
    rw [insertLoop]
    split
    · exact h
    · split
      · exact ih (idx + 1) rows nid ins h
      · rename_i hbreak hcond
        apply ih
        rw [List.map_append, List.nodup_append]
        refine ⟨h, by simp, ?_⟩
        intro x hx hx'
        simp only [List.map_cons, List.map_nil, List.mem_singleton] at hx'
        subst hx'
        obtain ⟨r, hr, hrx⟩ := List.mem_map.mp hx
        have hfalse : (rows.any (fun r => r.item_id == c.item.id) ||
            rows.any (fun r => r.digest_id == gid && r.rank == base_rank + idx)) = false :=
          Bool.eq_false_iff.mpr hcond
        have h1 : rows.any (fun r => r.item_id == c.item.id) = false :=
          (Bool.or_eq_false_iff.mp hfalse).1
        rw [List.any_eq_false] at h1
        exact h1 r hr (by rw [beq_iff_eq]; exact hrx)
theorem insertLoop_spec (gid top_n : Nat) (now : String) (base_rank : Nat) :
    ∀ (picked : List Cand) (idx : Nat) (rows : List DigestItemRow) (nid ins : Nat),
    (∀ c ∈ picked, ∀ r ∈ rows, r.item_id ≠ c.item.id) →
    (picked.map (fun c => c.item.id)).Nodup →
    (∀ r ∈ rows, r.digest_id = gid → r.rank < base_rank + idx) →
    insertLoop gid top_n now base_rank picked idx rows nid ins =
      (rows ++ rankedFrom gid now nid (base_rank + idx)
          (picked.take (top_n + 1 - (base_rank + idx))),
       nid + min picked.length (top_n + 1 - (base_rank + idx)),
       ins + min picked.length (top_n + 1 - (base_rank + idx))) := by
  intro picked
  induction picked with
  | nil =>
    intro idx rows nid ins hfresh hnd hrank
    simp [insertLoop, rankedFrom]
  | cons c rest ih =>
    intro idx rows nid ins hfresh hnd hrank
    rw [insertLoop]
    by_cases hbreak : top_n < base_rank + idx
    · rw [if_pos hbreak]
      have ht : top_n + 1 - (base_rank + idx) = 0 := by omega
      rw [ht]
      simp [rankedFrom]
    · rw [if_neg hbreak]
      have hcond : (rows.any (fun r => r.item_id == c.item.id) ||
          rows.any (fun r => r.digest_id == gid && r.rank == base_rank + idx)) = false := by
        rw [Bool.or_eq_false_iff]
        constructor
        · rw [List.any_eq_false]
          intro r hr
          rw [beq_iff_eq]
          exact hfresh c (List.mem_cons_self c rest) r hr
        · rw [List.any_eq_false]
          intro r hr hcontra
          rw [Bool.and_eq_true, beq_iff_eq, beq_iff_eq] at hcontra
          have := hrank r hr hcontra.1
          omega
      rw [hcond]
      simp only [Bool.false_eq_true, if_false]
      have hrec := ih (idx + 1)
        (rows ++ [{ id := nid, digest_id := gid, item_id := c.item.id,
                    rank := base_rank + idx, added_at := now }])
        (nid + 1) (ins + 1)
        ?_ ?_ ?_
      · rw [show base_rank + (idx + 1) = base_rank + idx + 1 by omega] at hrec
        rw [hrec]
        have ht : top_n + 1 - (base_rank + idx) = (top_n + 1 - (base_rank + idx + 1)) + 1 := by
          omega
        rw [ht, List.take_succ_cons, rankedFrom]
        rw [List.append_assoc]
        simp only [List.singleton_append, List.length_cons]
        have hm : min (rest.length + 1) (top_n + 1 - (base_rank + idx + 1) + 1) =
            min rest.length (top_n + 1 - (base_rank + idx + 1)) + 1 := by omega
        rw [hm]
        simp only [Prod.mk.injEq]
        exact ⟨trivial, by omega, by omega⟩
      · intro c' hc' r hr
        rcases List.mem_append.mp hr with hr1 | hr1
        · exact hfresh c' (List.mem_cons_of_mem c hc') r hr1
        · rw [List.mem_singleton] at hr1
          subst hr1
          simp only []
          intro hcontra
          rw [List.map_cons, List.nodup_cons] at hnd
          exact hnd.1 (List.mem_map.mpr ⟨c', hc', hcontra.symm⟩)
      · rw [List.map_cons, List.nodup_cons] at hnd
        exact hnd.2
      · intro r hr hgid
        rcases List.mem_append.mp hr with hr1 | hr1
        · have := hrank r hr1 hgid
          omega
        · rw [List.mem_singleton] at hr1
          subst hr1
          simp only []
          omega
/-! ### ensure_daily_digest facts -/

theorem ensure_frame (day : Int) (p : DigestParams) (now : String) (db : DB) :
    (ensure_daily_digest day p now db).2.items = db.items ∧
    (ensure_daily_digest day p now db).2.llm_analyses = db.llm_analyses ∧
    (ensure_daily_digest day p now db).2.daily_digest_items = db.daily_digest_items ∧
    (ensure_daily_digest day p now db).2.next_digest_item_id = db.next_digest_item_id := by
  refine ⟨?_, ?_, ?_, ?_⟩ <;>
  · rcases hf : db.daily_digests.find? (fun r => r.day == day) with _ | r <;>
      simp [ensure_daily_digest, hf]

theorem ensure_day (day : Int) (p : DigestParams) (now : String) (db : DB) :
    (ensure_daily_digest day p now db).1.day = day := by
  rcases hf : db.daily_digests.find? (fun r => r.day == day) with _ | r <;>
    simp only [ensure_daily_digest, hf]
  have h1 := List.find?_some hf
  simp only [beq_iff_eq] at h1
  exact h1

theorem ensure_digests (day : Int) (p : DigestParams) (now : String) (db : DB) :
    ((ensure_daily_digest day p now db).2.daily_digests = db.daily_digests ∧
      (ensure_daily_digest day p now db).1 ∈ db.daily_digests) ∨
    ((ensure_daily_digest day p now db).2.daily_digests =
        db.daily_digests ++ [(ensure_daily_digest day p now db).1] ∧
      (ensure_daily_digest day p now db).1.id = db.next_digest_id ∧
      db.daily_digests.find? (fun r => r.day == day) = none) := by
  rcases hf : db.daily_digests.find? (fun r => r.day == day) with _ | r
  · refine Or.inr ⟨?_, ?_, hf⟩ <;> simp [ensure_daily_digest, hf]
  · refine Or.inl ⟨?_, ?_⟩
    · simp [ensure_daily_digest, hf]
    · have hm := List.mem_of_find?_eq_some hf
      simpa [ensure_daily_digest, hf] using hm

theorem ensure_find (day : Int) (p : DigestParams) (now : String) (db : DB) :
    (ensure_daily_digest day p now db).2.daily_digests.find? (fun r => r.day == day) =
      some (ensure_daily_digest day p now db).1 := by
  rcases hf : db.daily_digests.find? (fun r => r.day == day) with _ | r
  case none =>
    simp only [ensure_daily_digest, hf]
    rw [List.find?_append, hf]
    simp [List.find?]
  case some =>
    simp only [ensure_daily_digest, hf]
    try exact hf

/-! ### forceReset facts -/

theorem forceReset_frame (gid : Nat) (now : String) (db : DB) :
    (forceReset gid now db).items = db.items ∧
    (forceReset gid now db).llm_analyses = db.llm_analyses ∧
    (forceReset gid now db).next_digest_id = db.next_digest_id ∧
    (forceReset gid now db).next_digest_item_id = db.next_digest_item_id :=
  ⟨rfl, rfl, rfl, rfl⟩

theorem forceReset_rows_gid (gid : Nat) (now : String) (db : DB) :
    rowsFor (forceReset gid now db) gid = [] := by
  unfold rowsFor forceReset
  simp only [List.filter_filter]
  rw [List.filter_eq_nil_iff]
  intro r hr
  simp

theorem forceReset_rows_other (gid g : Nat) (now : String) (db : DB) (hg : g ≠ gid) :
    rowsFor (forceReset gid now db) g = rowsFor db g := by
  unfold rowsFor forceReset
  simp only [List.filter_filter]
  apply List.filter_congr
  intro r hr
  rcases hrg : (r.digest_id == g) with _ | _
  · simp
  · have : (r.digest_id == gid) = false := by
      rw [beq_eq_false_iff_ne]
      rw [beq_iff_eq] at hrg
      rw [hrg]
      exact hg
    simp [this]

theorem forceReset_rows_subset (gid : Nat) (now : String) (db : DB) :
    ∀ r ∈ (forceReset gid now db).daily_digest_items, r ∈ db.daily_digest_items := by
  intro r hr
  exact (List.filter_sublist _).subset hr

theorem forceReset_digests_fields (gid : Nat) (now : String) (db : DB) :
    (forceReset gid now db).daily_digests.map DigestRow.id =
        db.daily_digests.map DigestRow.id ∧
    (forceReset gid now db).daily_digests.map DigestRow.day =
        db.daily_digests.map DigestRow.day := by
  unfold forceReset
  constructor <;>
  · simp only [List.map_map]
    apply List.map_congr_left
    intro r hr
    simp only [Function.comp_apply]
    split <;> rfl

/-! ### Congruence of the candidate pool in the table state -/

theorem latestFor_congr {db db' : DB} (h : db'.llm_analyses = db.llm_analyses)
    (i : Nat) : latestFor db' i = latestFor db i := by
  unfold latestFor
  rw [h]

theorem usedItem_mono {db db' : DB}
    (h : ∀ r ∈ db.daily_digest_items, r ∈ db'.daily_digest_items) {i : Nat}
    (hu : usedItem db i = true) : usedItem db' i = true := by
  unfold usedItem at *
  rw [List.any_eq_true] at *
  obtain ⟨r, hr, hri⟩ := hu
  exact ⟨r, h r hr, hri⟩

theorem baseCandidates_iff {db : DB} {p : DigestParams} {c : Cand} :
    c ∈ baseCandidates db p ↔
      (c.item ∈ db.items ∧ latestFor db c.item.id = some c.anal ∧
        baseEligible db p c.item c.anal = true) := by
  constructor
  · exact mem_baseCandidates
  · rintro ⟨h1, h2, h3⟩
    unfold baseCandidates
    rw [List.mem_filterMap]
    refine ⟨c.item, h1, ?_⟩
    rw [h2]
    show (if baseEligible db p c.item c.anal = true then
        some ⟨c.item, c.anal⟩ else none) = some c
    rw [if_pos h3]

theorem baseCandidates_shrink {db db' : DB} (hi : db'.items = db.items)
    (ha : db'.llm_analyses = db.llm_analyses)
    (hr : ∀ i, usedItem db i = true → usedItem db' i = true)
    {p : DigestParams} {c : Cand} (h : c ∈ baseCandidates db' p) :
    c ∈ baseCandidates db p := by
  rw [baseCandidates_iff] at h ⊢
  obtain ⟨h1, h2, h3⟩ := h
  rw [hi] at h1
  rw [latestFor_congr ha] at h2
  refine ⟨h1, h2, ?_⟩
  unfold baseEligible at h3 ⊢
  simp only [Bool.and_eq_true, Bool.not_eq_true'] at h3 ⊢
  refine ⟨h3.1, ?_⟩
  rcases hu : usedItem db c.item.id with _ | _
  · rfl
  · have := hr c.item.id hu
    rw [this] at h3
    exact absurd h3.2 (by simp)

/-! ### The state invariant maintained by the selector -/

/-- Well-formedness of a database state: fresh autoincrement ids, the two
unique indexes of `db.py` (`uq_daily_digests_day`,
`uq_daily_digest_items_item`), and contiguous 1-based ranks per digest. -/
structure WF (db : DB) : Prop where
  items_nodup : (db.items.map Item.id).Nodup
  digest_ids_nodup : (db.daily_digests.map DigestRow.id).Nodup
  digest_days_nodup : (db.daily_digests.map DigestRow.day).Nodup
  digest_id_lt : ∀ r ∈ db.daily_digests, r.id < db.next_digest_id
  member_items_nodup : (db.daily_digest_items.map (fun r => r.item_id)).Nodup
  ranks_eq : ∀ g : Nat, ranksOf db g = List.range' 1 (countFor db g)

theorem rowsFor_congr {db db' : DB}
    (h : db'.daily_digest_items = db.daily_digest_items) (g : Nat) :
    rowsFor db' g = rowsFor db g := by
  unfold rowsFor
  rw [h]

theorem ranksOf_rowsFor {db db' : DB} {g : Nat}
    (h : rowsFor db' g = rowsFor db g) :
    ranksOf db' g = ranksOf db g ∧ countFor db' g = countFor db g := by
  unfold ranksOf countFor
  rw [h]
  exact ⟨rfl, rfl⟩

theorem ensure_wf {day : Int} {p : DigestParams} {now : String} {db : DB}
    (hwf : WF db) : WF (ensure_daily_digest day p now db).2 := by
  obtain ⟨hfi, hfa, hfr, _⟩ := ensure_frame day p now db
  have hranks : ∀ g : Nat, ranksOf (ensure_daily_digest day p now db).2 g =
      List.range' 1 (countFor (ensure_daily_digest day p now db).2 g) := by
    intro g
    obtain ⟨h1, h2⟩ := ranksOf_rowsFor (rowsFor_congr hfr g)
    rw [h1, h2]
    exact hwf.ranks_eq g
  rcases ensure_digests day p now db with ⟨hd, _⟩ | ⟨hd, hid, hnone⟩
  · refine ⟨?_, ?_, ?_, ?_, ?_, hranks⟩
    · rw [hfi]; exact hwf.items_nodup
    · rw [hd]; exact hwf.digest_ids_nodup
    · rw [hd]; exact hwf.digest_days_nodup
    · rw [hd]
      intro r hr
      have hlt := hwf.digest_id_lt r hr
      have : (ensure_daily_digest day p now db).2.next_digest_id = db.next_digest_id ∨
          (ensure_daily_digest day p now db).2.next_digest_id = db.next_digest_id + 1 := by
        rcases hf : db.daily_digests.find? (fun r => r.day == day) with _ | r' <;>
          simp [ensure_daily_digest, hf]
      rcases this with h | h <;> rw [h] <;> omega
    · rw [hfr]; exact hwf.member_items_nodup
  · refine ⟨?_, ?_, ?_, ?_, ?_, hranks⟩
    · rw [hfi]; exact hwf.items_nodup
    · rw [hd, List.map_append, List.nodup_append]
      refine ⟨hwf.digest_ids_nodup, by simp, ?_⟩
      intro x hx hx'
      simp only [List.map_cons, List.map_nil, List.mem_singleton] at hx'
      rw [hid] at hx'
      obtain ⟨r, hr, hrx⟩ := List.mem_map.mp hx
      have := hwf.digest_id_lt r hr
      omega
    · rw [hd, List.map_append, List.nodup_append]
      refine ⟨hwf.digest_days_nodup, by simp, ?_⟩
      intro x hx hx'
      simp only [List.map_cons, List.map_nil, List.mem_singleton] at hx'
      obtain ⟨r, hr, hrx⟩ := List.mem_map.mp hx
      rw [List.find?_eq_none] at hnone
      have hne := hnone r hr
      rw [ensure_day] at hx'
      apply hne
      rw [beq_iff_eq, hrx, hx']
    · rw [hd]
      have hnext : (ensure_daily_digest day p now db).2.next_digest_id = db.next_digest_id + 1 := by
        simp [ensure_daily_digest, hnone]
      rw [hnext]
      intro r hr
      rcases List.mem_append.mp hr with h | h
      · have := hwf.digest_id_lt r h
        omega
      · rw [List.mem_singleton] at h
        subst h
        rw [hid]
        omega
    · rw [hfr]; exact hwf.member_items_nodup

theorem forceReset_wf {gid : Nat} {now : String} {db : DB} (hwf : WF db) :
    WF (forceReset gid now db) := by
  obtain ⟨hids, hdays⟩ := forceReset_digests_fields gid now db
  refine ⟨hwf.items_nodup, ?_, ?_, ?_, ?_, ?_⟩
  · rw [hids]; exact hwf.digest_ids_nodup
  · rw [hdays]; exact hwf.digest_days_nodup
  · intro r hr
    unfold forceReset at hr
    simp only [List.mem_map] at hr
    obtain ⟨r0, hr0, hrr⟩ := hr
    have hlt := hwf.digest_id_lt r0 hr0
    have : r.id = r0.id := by
      subst hrr
      split <;> rfl
    rw [this]
    exact hlt
  · exact List.Nodup.sublist ((List.filter_sublist _).map _) hwf.member_items_nodup
  · intro g
    by_cases hg : g = gid
    · subst hg
      unfold ranksOf countFor
      rw [forceReset_rows_gid g now db]
      rfl
    · obtain ⟨h1, h2⟩ := ranksOf_rowsFor (forceReset_rows_other gid g now db hg)
      rw [h1, h2]
      exact hwf.ranks_eq g

/-! ### Characterisation of create_or_refill_daily_digest -/

/-- The digest id the call operates on (`digest["id"]`). -/
def fillDigestId (day : Int) (p : DigestParams) (now : String) (db : DB) : Nat :=
  (ensure_daily_digest day p now db).1.id

/-- The state after the optional force reset. -/
def fillDB2 (day : Int) (p : DigestParams) (force : Bool) (now : String) (db : DB) : DB :=
  if force then
    forceReset (fillDigestId day p now db) now (ensure_daily_digest day p now db).2
  else (ensure_daily_digest day p now db).2

/-- `cur_count` after the optional force reset. -/
def fillCur (day : Int) (p : DigestParams) (force : Bool) (now : String) (db : DB) : Nat :=
  if force then 0
  else countFor (ensure_daily_digest day p now db).2 (fillDigestId day p now db)

/-- The idempotence short-circuit condition of line 284. -/
def fillCond (day : Int) (p : DigestParams) (refill force : Bool) (now : String)
    (db : DB) : Prop :=
  p.top_n ≤ fillCur day p force now db ∨
    (0 < fillCur day p force now db ∧ refill = false ∧ force = false)

instance (day : Int) (p : DigestParams) (refill force : Bool) (now : String)
    (db : DB) : Decidable (fillCond day p refill force now db) := by
  unfold fillCond
  infer_instance

theorem pickedList_length_le (day : Int) (p : DigestParams) (need : Nat) (db : DB) :
    (pickedList day p need db).length ≤ need := by
  unfold pickedList
  split
  · rw [List.length_append]
    have h1 : (select_prefer day p need db).length ≤ need := by
      unfold select_prefer
      rw [List.length_take]
      omega
    split
    · have h2 : (select_fallback day p (need - (select_prefer day p need db).length) db).length ≤
          need - (select_prefer day p need db).length := by
        unfold select_fallback
        rw [List.length_take]
        omega
      omega
    · simp only [List.length_nil]
      omega
  · simp

theorem fill_sc (day : Int) (p : DigestParams) (refill force : Bool) (now : String)
    (db : DB) (hc : fillCond day p refill force now db) :
    (create_or_refill_daily_digest day p refill force now db).1.changed = false ∧
    (create_or_refill_daily_digest day p refill force now db).2 =
      fillDB2 day p force now db := by
  unfold fillCond fillCur fillDigestId at hc
  unfold create_or_refill_daily_digest fillDB2 fillDigestId
  rw [if_pos hc]
  rcases hg : get_digest_by_day
      (if force then
        forceReset (ensure_daily_digest day p now db).1.id now
          (ensure_daily_digest day p now db).2
      else (ensure_daily_digest day p now db).2) day with _ | ri <;>
    simp only [hg] <;> refine ⟨?_, ?_⟩ <;> first | rfl | trivial

theorem fill_ins (day : Int) (p : DigestParams) (refill force : Bool) (now : String)
    (db : DB) (hwf : WF db) (gid : Nat) (db2 : DB) (cur : Nat) (picked : List Cand)
    (hgid : gid = fillDigestId day p now db)
    (hdb2 : db2 = fillDB2 day p force now db)
    (hcur : cur = fillCur day p force now db)
    (hpicked : picked = pickedList day p (p.top_n - cur) db2)
    (hc : ¬ fillCond day p refill force now db) :
    (create_or_refill_daily_digest day p refill force now db).1.changed = true ∧
    (create_or_refill_daily_digest day p refill force now db).1.inserted = picked.length ∧
    (create_or_refill_daily_digest day p refill force now db).2.daily_digest_items =
      db2.daily_digest_items ++
        rankedFrom gid now db2.next_digest_item_id (cur + 1) picked ∧
    (create_or_refill_daily_digest day p refill force now db).2.items = db2.items ∧
    (create_or_refill_daily_digest day p refill force now db).2.llm_analyses =
      db2.llm_analyses ∧
    (∃ st : String,
      (create_or_refill_daily_digest day p refill force now db).2.daily_digests =
        db2.daily_digests.map (fun r =>
          if r.id == gid then { r with updated_at := now, status := st } else r)) ∧
    (create_or_refill_daily_digest day p refill force now db).2.next_digest_id =
      db2.next_digest_id := by
  have hwf1 : WF (ensure_daily_digest day p now db).2 := ensure_wf hwf
  have hwf2 : WF db2 := by
    rw [hdb2]
    unfold fillDB2
    split
    · exact forceReset_wf hwf1
    · exact hwf1
  have hbase : countFor db2 gid = cur := by
    rw [hdb2, hcur, hgid]
    unfold fillDB2 fillCur fillDigestId
    rcases force with _ | _
    · simp only [if_neg Bool.false_ne_true]
    · simp only [eq_self_iff_true, if_true]
      unfold countFor
      rw [forceReset_rows_gid]
      rfl
  -- the three insert-loop hypotheses
  have hfresh : ∀ c ∈ picked, ∀ r ∈ db2.daily_digest_items, r.item_id ≠ c.item.id := by
    intro c hcp r hr
    have hbc := mem_pickedList (hpicked ▸ hcp)
    have hnu := baseCandidates_not_used hbc
    unfold usedItem at hnu
    rw [List.any_eq_false] at hnu
    have := hnu r hr
    rw [beq_iff_eq] at this
    exact this
  have hnodup : (picked.map (fun c => c.item.id)).Nodup := by
    rw [hpicked]
    exact pickedList_ids_nodup hwf2.items_nodup
  have hrank : ∀ r ∈ db2.daily_digest_items, r.digest_id = gid → r.rank < cur + 1 := by
    intro r hr hrg
    have hmem : r ∈ rowsFor db2 gid := by
      unfold rowsFor
      rw [List.mem_filter]
      exact ⟨hr, by rw [beq_iff_eq]; exact hrg⟩
    have hrk : r.rank ∈ ranksOf db2 gid := List.mem_map.mpr ⟨r, hmem, rfl⟩
    rw [hwf2.ranks_eq gid, hbase] at hrk
    rw [List.mem_range'] at hrk
    obtain ⟨i, hi, hri⟩ := hrk
    omega
  have hlen : picked.length ≤ p.top_n - cur := by
    rw [hpicked]
    exact pickedList_length_le day p (p.top_n - cur) db2
  have htake : picked.take (p.top_n + 1 - (cur + 1)) = picked := by
    apply List.take_of_length_le
    omega
  have hmin : min picked.length (p.top_n + 1 - (cur + 1)) = picked.length := by
    omega
  have hspec := insertLoop_spec gid p.top_n now cur picked 1
    db2.daily_digest_items db2.next_digest_item_id 0 hfresh hnodup
    (by intro r hr hrg; exact hrank r hr hrg)
  rw [htake, hmin] at hspec
  subst hpicked
  subst hcur
  subst hdb2
  subst hgid
  -- unfold the proof-side abbreviations everywhere
  unfold fillCond at hc
  unfold fillCur fillDigestId at hc
  unfold fillDB2 fillCur fillDigestId at hspec hbase
  unfold fillDB2 fillCur fillDigestId
  cases force
  · simp only [Bool.false_eq_true, if_false] at hc hspec ⊢
    simp only [create_or_refill_daily_digest, Bool.false_eq_true, if_false]
    split
    · rename_i hraw
      exact absurd hraw hc
    · rw [hspec]
      refine ⟨?_, ?_, rfl, rfl, rfl, ⟨_, rfl⟩, rfl⟩
      · split <;> rfl
      · split <;> exact Nat.zero_add _
  · simp only [eq_self_iff_true, if_true] at hc hspec hbase ⊢
    simp only [create_or_refill_daily_digest, eq_self_iff_true, if_true]
    split
    · rename_i hraw
      exact absurd hraw hc
    · rw [hbase, hspec]
      refine ⟨?_, ?_, rfl, rfl, rfl, ⟨_, rfl⟩, rfl⟩
      · split <;> rfl
      · split <;> exact Nat.zero_add _

theorem fillDB2_countFor (day : Int) (p : DigestParams) (force : Bool) (now : String)
    (db : DB) :
    countFor (fillDB2 day p force now db) (fillDigestId day p now db) =
      fillCur day p force now db := by
  unfold fillDB2 fillCur fillDigestId
  rcases force with _ | _
  · simp only [Bool.false_eq_true, if_false]
  · simp only [eq_self_iff_true, if_true]
    unfold countFor
    rw [forceReset_rows_gid]
    rfl

theorem rankedFrom_length (gid : Nat) (now : String) :
    ∀ (l : List Cand) (nid s : Nat), (rankedFrom gid now nid s l).length = l.length := by
  intro l
  induction l with
  | nil => intro nid s; rfl
  | cons c rest ih =>
    intro nid s
    rw [rankedFrom, List.length_cons, ih, List.length_cons]

theorem statusUpdate_digests_fields (l : List DigestRow) (gid : Nat) (now st : String) :
    ((l.map (fun r =>
        if r.id == gid then { r with updated_at := now, status := st } else r)).map
          DigestRow.id = l.map DigestRow.id) ∧
    ((l.map (fun r =>
        if r.id == gid then { r with updated_at := now, status := st } else r)).map
          DigestRow.day = l.map DigestRow.day) := by
  constructor <;>
  · simp only [List.map_map]
    apply List.map_congr_left
    intro r hr
    simp only [Function.comp_apply]
    split <;> rfl

theorem fill_wf (day : Int) (p : DigestParams) (refill force : Bool) (now : String)
    (db : DB) (hwf : WF db) :
    WF (create_or_refill_daily_digest day p refill force now db).2 := by
  have hwf2 : WF (fillDB2 day p force now db) := by
    unfold fillDB2
    split
    · exact forceReset_wf (ensure_wf hwf)
    · exact ensure_wf hwf
  by_cases hc : fillCond day p refill force now db
  · rw [(fill_sc day p refill force now db hc).2]
    exact hwf2
  · obtain ⟨hch, hins, hitems, hfi, hfa, ⟨st, hdg⟩, hnid⟩ :=
      fill_ins day p refill force now db hwf _ _ _ _ rfl rfl rfl rfl hc
    have hpsub : ∀ c ∈ pickedList day p (p.top_n - fillCur day p force now db)
        (fillDB2 day p force now db), c ∈ baseCandidates (fillDB2 day p force now db) p :=
      fun c hcp => mem_pickedList hcp
    refine ⟨?_, ?_, ?_, ?_, ?_, ?_⟩
    · rw [hfi]
      exact hwf2.items_nodup
    · rw [hdg, (statusUpdate_digests_fields _ _ _ _).1]
      exact hwf2.digest_ids_nodup
    · rw [hdg, (statusUpdate_digests_fields _ _ _ _).2]
      exact hwf2.digest_days_nodup
    · intro r' hr'
      rw [hdg] at hr'
      obtain ⟨r, hr, hrr⟩ := List.mem_map.mp hr'
      have hid : r'.id = r.id := by
        subst hrr
        split <;> rfl
      rw [hnid, hid]
      exact hwf2.digest_id_lt r hr
    · rw [hitems, List.map_append, rankedFrom_item_map, List.nodup_append]
      refine ⟨hwf2.member_items_nodup, pickedList_ids_nodup hwf2.items_nodup, ?_⟩
      intro x hx hx'
      obtain ⟨r, hr, hrx⟩ := List.mem_map.mp hx
      obtain ⟨c, hcp, hcx⟩ := List.mem_map.mp hx'
      have hnu := baseCandidates_not_used (hpsub c hcp)
      unfold usedItem at hnu
      rw [List.any_eq_false] at hnu
      apply hnu r hr
      rw [beq_iff_eq, hrx, hcx]
    · intro g
      unfold ranksOf countFor rowsFor
      rw [hitems, List.filter_append]
      by_cases hg : g = fillDigestId day p now db
      · rw [hg]
        rw [rankedFrom_filter_gid]
        rw [List.map_append, List.length_append]
        have h1 : (fillDB2 day p force now db).daily_digest_items.filter
            (fun r => r.digest_id == fillDigestId day p now db) =
            rowsFor (fillDB2 day p force now db) (fillDigestId day p now db) := rfl
        rw [h1]
        have h2 : (rowsFor (fillDB2 day p force now db) (fillDigestId day p now db)).map
            (fun r => r.rank) =
            ranksOf (fillDB2 day p force now db) (fillDigestId day p now db) := rfl
        rw [h2, hwf2.ranks_eq (fillDigestId day p now db)]
        have h3 : countFor (fillDB2 day p force now db) (fillDigestId day p now db) =
            fillCur day p force now db := fillDB2_countFor day p force now db
        have h3u : (rowsFor (fillDB2 day p force now db) (fillDigestId day p now db)).length =
            fillCur day p force now db := h3
        rw [h3, h3u, rankedFrom_rank_map, rankedFrom_length]
        have h4 : 1 + 1 * fillCur day p force now db = fillCur day p force now db + 1 := by
          omega
        rw [← h4, List.range'_append]
        have h5 : (pickedList day p (p.top_n - fillCur day p force now db)
            (fillDB2 day p force now db)).length + fillCur day p force now db =
            fillCur day p force now db +
              (pickedList day p (p.top_n - fillCur day p force now db)
                (fillDB2 day p force now db)).length := by
          omega
        rw [h5]
      · rw [rankedFrom_filter_other _ _ _ hg]
        rw [List.append_nil]
        have h1 : (fillDB2 day p force now db).daily_digest_items.filter
            (fun r => r.digest_id == g) = rowsFor (fillDB2 day p force now db) g := rfl
        rw [h1]
        have h2 : (rowsFor (fillDB2 day p force now db) g).map (fun r => r.rank) =
            ranksOf (fillDB2 day p force now db) g := rfl
        rw [h2, hwf2.ranks_eq g]
        rfl

/-! ### States reachable by the selector's operations -/

/-- States reachable from a fresh deployment (empty digest tables, any
ingested items with distinct autoincrement ids) by any interleaving of
`ensure_daily_digest` / `create_or_refill_daily_digest` calls and ingestion
of further items and analyses. -/
inductive Reachable : DB → Prop where
  | init : ∀ (items : List Item) (analyses : List Analysis),
      (items.map Item.id).Nodup →
      Reachable { items := items, llm_analyses := analyses, daily_digests := [],
                  daily_digest_items := [], next_digest_id := 1, next_digest_item_id := 1 }
  | ensure_step : ∀ (day : Int) (p : DigestParams) (now : String) {db : DB},
      Reachable db → Reachable (ensure_daily_digest day p now db).2
  | fill_step : ∀ (day : Int) (p : DigestParams) (refill force : Bool) (now : String)
      {db : DB}, Reachable db →
      Reachable (create_or_refill_daily_digest day p refill force now db).2
  | ingest_item : ∀ (i : Item) {db : DB}, (∀ j ∈ db.items, j.id ≠ i.id) →
      Reachable db → Reachable { db with items := db.items ++ [i] }
  | ingest_analysis : ∀ (a : Analysis) {db : DB},
      Reachable db → Reachable { db with llm_analyses := db.llm_analyses ++ [a] }

theorem reachable_wf {db : DB} (h : Reachable db) : WF db := by
  induction h with
  | init items analyses hnd =>
    refine ⟨hnd, by simp, by simp, by simp, by simp, ?_⟩
    intro g
    rfl
  | ensure_step day p now _ ih => exact ensure_wf ih
  | fill_step day p refill force now _ ih => exact fill_wf day p refill force now _ ih
  | ingest_item i hfresh _ ih =>
    refine ⟨?_, ih.digest_ids_nodup, ih.digest_days_nodup, ih.digest_id_lt,
      ih.member_items_nodup, ih.ranks_eq⟩
    rw [List.map_append, List.nodup_append]
    refine ⟨ih.items_nodup, by simp, ?_⟩
    intro x hx hx'
    simp only [List.map_cons, List.map_nil, List.mem_singleton] at hx'
    obtain ⟨j, hj, hjx⟩ := List.mem_map.mp hx
    exact hfresh j hj (by rw [hjx, hx'])
  | ingest_analysis a _ ih =>
    exact ⟨ih.items_nodup, ih.digest_ids_nodup, ih.digest_days_nodup,
      ih.digest_id_lt, ih.member_items_nodup, ih.ranks_eq⟩

theorem length_filter_le_one {α β : Type _} [DecidableEq β] (f : α → β) (i : β) :
    ∀ l : List α, (l.map f).Nodup → (l.filter (fun x => f x == i)).length ≤ 1 := by
  intro l
  induction l with
  | nil => intro hnd; simp
  | cons a t ih =>
    intro hnd
    rw [List.map_cons, List.nodup_cons] at hnd
    rw [List.filter_cons]
    split
    · rename_i ha
      rw [beq_iff_eq] at ha
      have hnil : t.filter (fun x => f x == i) = [] := by
        rw [List.filter_eq_nil_iff]
        intro b hb hfb
        rw [beq_iff_eq] at hfb
        exact hnd.1 (List.mem_map.mpr ⟨b, hb, by rw [hfb, ha]⟩)
      rw [hnil]
      simp
    · exact ih hnd.2

theorem fillDB2_rows_sub (day : Int) (p : DigestParams) (force : Bool) (now : String)
    (db : DB) :
    ∀ r ∈ (fillDB2 day p force now db).daily_digest_items, r ∈ db.daily_digest_items := by
  intro r hr
  unfold fillDB2 at hr
  split at hr
  · have h1 := forceReset_rows_subset _ _ _ r hr
    rw [(ensure_frame day p now db).2.2.1] at h1
    exact h1
  · rw [(ensure_frame day p now db).2.2.1] at hr
    exact hr

/-- An empty deployment state (fresh database). -/
def db0 : DB :=
  { items := [], llm_analyses := [], daily_digests := [],
    daily_digest_items := [], next_digest_id := 1, next_digest_item_id := 1 }

/-! ### The claims -/

/-- C1: global item exclusivity.  In every state reachable by any sequence
of `ensure_daily_digest` / `create_or_refill_daily_digest` calls (any days,
any params, plus arbitrary ingestion of items and analyses), every item id
occurs in at most one `daily_digest_items` row — the `uq_daily_digest_items_item`
unique index modelled in the insert loop rejects a second insert — and
candidate selection always excludes items that already appear in any
digest. -/
theorem global_item_exclusivity (db : DB) (h : Reachable db) :
    (∀ i : Nat, (db.daily_digest_items.filter (fun r => r.item_id == i)).length ≤ 1) ∧
    (∀ (p : DigestParams) (c : Cand), c ∈ baseCandidates db p →
      usedItem db c.item.id = false) := by
  refine ⟨?_, fun p c hc => baseCandidates_not_used hc⟩
  intro i
  exact length_filter_le_one (fun r => r.item_id) i db.daily_digest_items
    (reachable_wf h).member_items_nodup

/-- C1 witness: a state reached by an actual fill call from a nonempty
store satisfies the invariant. -/
theorem global_item_exclusivity_witness :
    (∀ i : Nat,
      (((create_or_refill_daily_digest 0 {} true false "t"
          db0).2).daily_digest_items.filter
        (fun r => r.item_id == i)).length ≤ 1) ∧
    (∀ (p : DigestParams) (c : Cand),
      c ∈ baseCandidates (create_or_refill_daily_digest 0 {} true false "t"
          db0).2 p →
      usedItem (create_or_refill_daily_digest 0 {} true false "t"
          db0).2 c.item.id = false) :=
  global_item_exclusivity _
    (Reachable.fill_step 0 {} true false "t" (Reachable.init [] [] (by decide)))

/-- C2: rank contiguity.  After any `create_or_refill_daily_digest` call
from a reachable state, every digest's rank column is exactly
`{1, …, n}` (no gaps, no duplicates), and every membership row the call
added carries a rank at most the `top_n` of that call. -/
theorem rank_contiguity (db : DB) (day : Int) (p : DigestParams)
    (refill force : Bool) (now : String) (h : Reachable db) :
    (∀ g : Nat,
      (ranksOf (create_or_refill_daily_digest day p refill force now db).2 g).Nodup ∧
      (∀ k : Nat,
        k ∈ ranksOf (create_or_refill_daily_digest day p refill force now db).2 g ↔
          (1 ≤ k ∧ k ≤ countFor (create_or_refill_daily_digest day p refill force now db).2 g))) ∧
    (∀ r ∈ (create_or_refill_daily_digest day p refill force now db).2.daily_digest_items,
      r ∈ db.daily_digest_items ∨ r.rank ≤ p.top_n) := by
  have hwf' : WF (create_or_refill_daily_digest day p refill force now db).2 :=
    fill_wf day p refill force now db (reachable_wf h)
  constructor
  · intro g
    rw [hwf'.ranks_eq g]
    constructor
    · exact List.nodup_range' 1 _
    · intro k
      rw [List.mem_range']
      constructor
      · rintro ⟨i, hi, hk⟩
        omega
      · rintro ⟨h1, h2⟩
        exact ⟨k - 1, by omega, by omega⟩
  · intro r hr
    by_cases hc : fillCond day p refill force now db
    · rw [(fill_sc day p refill force now db hc).2] at hr
      exact Or.inl (fillDB2_rows_sub day p force now db r hr)
    · obtain ⟨_, _, hitems, _, _, _, _⟩ :=
        fill_ins day p refill force now db (reachable_wf h) _ _ _ _ rfl rfl rfl rfl hc
      rw [hitems] at hr
      rcases List.mem_append.mp hr with hr1 | hr1
      · exact Or.inl (fillDB2_rows_sub day p force now db r hr1)
      · right
        obtain ⟨_, _, hs, hlt⟩ := rankedFrom_mem _ _ _ _ _ r hr1
        have hlen := pickedList_length_le day p
          (p.top_n - fillCur day p force now db) (fillDB2 day p force now db)
        have hcur_lt : fillCur day p force now db < p.top_n ∨ p.top_n = 0 ∨
            ¬ (p.top_n ≤ fillCur day p force now db) := by
          unfold fillCond at hc
          push_neg at hc
          omega
        unfold fillCond at hc
        push_neg at hc
        omega

/-- C2 witness: concrete instantiation after one fill call on a one-item
store. -/
theorem rank_contiguity_witness :
    (∀ g : Nat,
      (ranksOf (create_or_refill_daily_digest 0 {} true false "t"
          db0).2 g).Nodup ∧
      (∀ k : Nat,
        k ∈ ranksOf (create_or_refill_daily_digest 0 {} true false "t"
            db0).2 g ↔
          (1 ≤ k ∧ k ≤ countFor (create_or_refill_daily_digest 0 {} true false "t"
              db0).2 g))) ∧
    (∀ r ∈ (create_or_refill_daily_digest 0 {} true false "t"
        db0).2.daily_digest_items,
      r ∈ db0.daily_digest_items ∨
        r.rank ≤ ({} : DigestParams).top_n) :=
  rank_contiguity _ 0 {} true false "t" (Reachable.init [] [] (by decide))

/-- C6: day-window arithmetic and disjointness.  For `prefer_days ≥ 1` and
`max_lookback_days ≥ prefer_days`: the preferred-window restriction is the
date interval `[day-(prefer_days-1), day]`, the backfill restriction is
`[day-(max_lookback_days-1), day-(prefer_days-1))`, the two are disjoint,
and within one call no item can be returned by both `_select_prefer` and
`_select_fallback`. -/
theorem day_window_disjointness (day : Int) (p : DigestParams)
    (h1 : 1 ≤ p.prefer_days) (h2 : p.prefer_days ≤ p.max_lookback_days) :
    (∀ t : Int, inPreferWindow day p t = true ↔
      (day - ((p.prefer_days : Int) - 1) ≤ t ∧ t ≤ day)) ∧
    (∀ t : Int, inFallbackWindow day p t = true ↔
      (t < day - ((p.prefer_days : Int) - 1) ∧
        day - ((p.max_lookback_days : Int) - 1) ≤ t)) ∧
    (∀ t : Int, ¬(inPreferWindow day p t = true ∧ inFallbackWindow day p t = true)) ∧
    (∀ (db : DB) (need need' : Nat) (c c' : Cand), (db.items.map Item.id).Nodup →
      c ∈ select_prefer day p need db → c' ∈ select_fallback day p need' db →
      c.item.id ≠ c'.item.id) := by
  refine ⟨fun t => inPreferWindow_iff day p t h1,
    fun t => inFallbackWindow_iff day p t, ?_, ?_⟩
  · rintro t ⟨hp, hf⟩
    rw [windows_disjoint day p t hp] at hf
    exact absurd hf (by simp)
  · intro db need need' c c' hnd hc hc' heq
    obtain ⟨hcb, hcw⟩ := mem_select_prefer hc
    obtain ⟨hcb', hcw'⟩ := mem_select_fallback hc'
    have hcc : c = c' := baseCandidates_id_inj hnd hcb hcb' heq
    subst hcc
    rw [windows_disjoint day p (candDay c) hcw] at hcw'
    exact absurd hcw' (by simp)

/-- C6 witness: instantiation at the default parameters. -/
theorem day_window_disjointness_witness :
    1 ≤ ({} : DigestParams).prefer_days ∧
    ({} : DigestParams).prefer_days ≤ ({} : DigestParams).max_lookback_days ∧
    ((∀ t : Int, inPreferWindow 0 {} t = true ↔
        ((0 : Int) - ((({} : DigestParams).prefer_days : Int) - 1) ≤ t ∧ t ≤ 0)) ∧
      (∀ t : Int, inFallbackWindow 0 {} t = true ↔
        (t < (0 : Int) - ((({} : DigestParams).prefer_days : Int) - 1) ∧
          (0 : Int) - ((({} : DigestParams).max_lookback_days : Int) - 1) ≤ t)) ∧
      (∀ t : Int, ¬(inPreferWindow 0 {} t = true ∧ inFallbackWindow 0 {} t = true)) ∧
      (∀ (db : DB) (need need' : Nat) (c c' : Cand), (db.items.map Item.id).Nodup →
        c ∈ select_prefer 0 {} need db → c' ∈ select_fallback 0 {} need' db →
        c.item.id ≠ c'.item.id)) :=
  ⟨by decide, by decide, day_window_disjointness 0 {} (by decide) (by decide)⟩

/-! ### Concrete test fixtures -/

/-- A timestamp at midnight of an abstract day. -/
def tsAt (d : Int) : Timestamp := { day := d, tod := 0 }

def itmA : Item :=
  { id := 1, source_name := "s", url := "u1", title := "a", body := "",
    published_at := some (tsAt 0), fetched_at := tsAt 0,
    business_score := 2, dfo_score := 2 }

def itmB : Item :=
  { id := 2, source_name := "s", url := "u2", title := "b", body := "",
    published_at := some (tsAt (-5)), fetched_at := tsAt (-5),
    business_score := 2, dfo_score := 2 }

def anA : Analysis :=
  { id := 1, item_id := 1, interest_score := 5, is_dfo_business := true,
    title_short := "", bulletin := "", summary := "", why := "" }

def anB : Analysis :=
  { id := 2, item_id := 2, interest_score := 9, is_dfo_business := true,
    title_short := "", bulletin := "", summary := "", why := "" }

/-- The spec's preference-ordering scenario parameters:
`prefer_days=2, max_lookback_days=30, top_n=1`. -/
def pTest : DigestParams :=
  { top_n := 1, prefer_days := 2, max_lookback_days := 30, min_interest := 5,
    min_dfo := 2, min_business := 2, exclude_war := true, only_dfo_business := true }

/-- Item A published on the digest day with interest 5, item B published
five days earlier with interest 9. -/
def dbAB : DB :=
  { items := [itmA, itmB], llm_analyses := [anA, anB], daily_digests := [],
    daily_digest_items := [], next_digest_id := 1, next_digest_item_id := 1 }

def cA : Cand := { item := itmA, anal := anA }

/-- State after filling day 0's digest from `dbAB`: digest 1 holds item 1. -/
def dbC7 : DB := (create_or_refill_daily_digest 0 pTest true false "t" dbAB).2

/-- `pTest` with the degenerate `top_n = 0`. -/
def pZero : DigestParams :=
  { top_n := 0, prefer_days := 2, max_lookback_days := 30, min_interest := 5,
    min_dfo := 2, min_business := 2, exclude_war := true, only_dfo_business := true }

/-! ### C10 -/

/-- C10: force-rebuild frame.  The `force=true` reset (`forceReset`, lines
274–282) deletes exactly the target digest's membership rows, leaves every
other digest's membership untouched, leaves items / analyses / id counters
unchanged, and on the digest table changes only the target row's
`updated_at`, `status` (to `'draft'`) and `note` (to `''`) — its `id`,
`day`, `created_at`, `params_json` and stored script fields survive, and
all other digest rows are untouched. -/
theorem force_reset_frame (db : DB) (gid : Nat) (now : String) :
    (forceReset gid now db).items = db.items ∧
    (forceReset gid now db).llm_analyses = db.llm_analyses ∧
    (forceReset gid now db).next_digest_id = db.next_digest_id ∧
    (forceReset gid now db).next_digest_item_id = db.next_digest_item_id ∧
    rowsFor (forceReset gid now db) gid = [] ∧
    (∀ g : Nat, g ≠ gid → rowsFor (forceReset gid now db) g = rowsFor db g) ∧
    (forceReset gid now db).daily_digests.length = db.daily_digests.length ∧
    (∀ (n : Nat) (hn : n < db.daily_digests.length)
        (hn' : n < (forceReset gid now db).daily_digests.length),
      ((forceReset gid now db).daily_digests.get ⟨n, hn'⟩).id =
          (db.daily_digests.get ⟨n, hn⟩).id ∧
      ((forceReset gid now db).daily_digests.get ⟨n, hn'⟩).day =
          (db.daily_digests.get ⟨n, hn⟩).day ∧
      ((forceReset gid now db).daily_digests.get ⟨n, hn'⟩).created_at =
          (db.daily_digests.get ⟨n, hn⟩).created_at ∧
      ((forceReset gid now db).daily_digests.get ⟨n, hn'⟩).params_json =
          (db.daily_digests.get ⟨n, hn⟩).params_json ∧
      ((forceReset gid now db).daily_digests.get ⟨n, hn'⟩).script_json =
          (db.daily_digests.get ⟨n, hn⟩).script_json ∧
      ((forceReset gid now db).daily_digests.get ⟨n, hn'⟩).script_model =
          (db.daily_digests.get ⟨n, hn⟩).script_model ∧
      ((forceReset gid now db).daily_digests.get ⟨n, hn'⟩).script_created_at =
          (db.daily_digests.get ⟨n, hn⟩).script_created_at ∧
      ((db.daily_digests.get ⟨n, hn⟩).id ≠ gid →
        (forceReset gid now db).daily_digests.get ⟨n, hn'⟩ =
          db.daily_digests.get ⟨n, hn⟩) ∧
      ((db.daily_digests.get ⟨n, hn⟩).id = gid →
        ((forceReset gid now db).daily_digests.get ⟨n, hn'⟩).status = "draft" ∧
        ((forceReset gid now db).daily_digests.get ⟨n, hn'⟩).note = "" ∧
        ((forceReset gid now db).daily_digests.get ⟨n, hn'⟩).updated_at = now)) := by
  refine ⟨rfl, rfl, rfl, rfl, forceReset_rows_gid gid now db,
    fun g hg => forceReset_rows_other gid g now db hg, ?_, ?_⟩
  · unfold forceReset
    rw [List.length_map]
  · intro n hn hn'
    have hmap : (forceReset gid now db).daily_digests.get ⟨n, hn'⟩ =
        (if (db.daily_digests.get ⟨n, hn⟩).id == gid then
          { db.daily_digests.get ⟨n, hn⟩ with
              updated_at := now, status := "draft", note := "" }
        else db.daily_digests.get ⟨n, hn⟩) := by
      unfold forceReset
      rw [List.get_eq_getElem, List.get_eq_getElem, List.getElem_map]
    rw [hmap]
    by_cases hid : (db.daily_digests.get ⟨n, hn⟩).id = gid
    · rw [if_pos (by rw [beq_iff_eq]; exact hid)]
      exact ⟨rfl, rfl, rfl, rfl, rfl, rfl, rfl,
        fun hne => absurd hid hne, fun _ => ⟨rfl, rfl, rfl⟩⟩
    · rw [if_neg (by rw [beq_iff_eq]; exact hid)]
      exact ⟨rfl, rfl, rfl, rfl, rfl, rfl, rfl,
        fun _ => rfl, fun heq => absurd heq hid⟩

/-- C10 witness: the frame at a state with one populated digest. -/
theorem force_reset_frame_witness :
    (forceReset 1 "t2" dbC7).items = dbC7.items ∧
    (forceReset 1 "t2" dbC7).llm_analyses = dbC7.llm_analyses ∧
    (forceReset 1 "t2" dbC7).next_digest_id = dbC7.next_digest_id ∧
    (forceReset 1 "t2" dbC7).next_digest_item_id = dbC7.next_digest_item_id ∧
    rowsFor (forceReset 1 "t2" dbC7) 1 = [] ∧
    (∀ g : Nat, g ≠ 1 → rowsFor (forceReset 1 "t2" dbC7) g = rowsFor dbC7 g) ∧
    (forceReset 1 "t2" dbC7).daily_digests.length = dbC7.daily_digests.length ∧
    (∀ (n : Nat) (hn : n < dbC7.daily_digests.length)
        (hn' : n < (forceReset 1 "t2" dbC7).daily_digests.length),
      ((forceReset 1 "t2" dbC7).daily_digests.get ⟨n, hn'⟩).id =
          (dbC7.daily_digests.get ⟨n, hn⟩).id ∧
      ((forceReset 1 "t2" dbC7).daily_digests.get ⟨n, hn'⟩).day =
          (dbC7.daily_digests.get ⟨n, hn⟩).day ∧
      ((forceReset 1 "t2" dbC7).daily_digests.get ⟨n, hn'⟩).created_at =
          (dbC7.daily_digests.get ⟨n, hn⟩).created_at ∧
      ((forceReset 1 "t2" dbC7).daily_digests.get ⟨n, hn'⟩).params_json =
          (dbC7.daily_digests.get ⟨n, hn⟩).params_json ∧
      ((forceReset 1 "t2" dbC7).daily_digests.get ⟨n, hn'⟩).script_json =
          (dbC7.daily_digests.get ⟨n, hn⟩).script_json ∧
      ((forceReset 1 "t2" dbC7).daily_digests.get ⟨n, hn'⟩).script_model =
          (dbC7.daily_digests.get ⟨n, hn⟩).script_model ∧
      ((forceReset 1 "t2" dbC7).daily_digests.get ⟨n, hn'⟩).script_created_at =
          (dbC7.daily_digests.get ⟨n, hn⟩).script_created_at ∧
      ((dbC7.daily_digests.get ⟨n, hn⟩).id ≠ 1 →
        (forceReset 1 "t2" dbC7).daily_digests.get ⟨n, hn'⟩ =
          dbC7.daily_digests.get ⟨n, hn⟩) ∧
      ((dbC7.daily_digests.get ⟨n, hn⟩).id = 1 →
        ((forceReset 1 "t2" dbC7).daily_digests.get ⟨n, hn'⟩).status = "draft" ∧
        ((forceReset 1 "t2" dbC7).daily_digests.get ⟨n, hn'⟩).note = "" ∧
        ((forceReset 1 "t2" dbC7).daily_digests.get ⟨n, hn'⟩).updated_at = "t2")) :=
  force_reset_frame dbC7 1 "t2"

/-! ### C7 -/

/-- C7 counterexample: with `top_n = 0` and `force = true` against a
populated digest, the short-circuit condition holds after the force reset
and the call reports `changed = false`, yet the membership rows are NOT
exactly as before the call: the force reset already deleted day 0's row. -/
theorem short_circuit_frame_counterexample :
    fillCond 0 pZero true true "t2" dbC7 ∧
    (create_or_refill_daily_digest 0 pZero true true "t2" dbC7).1.changed = false ∧
    (create_or_refill_daily_digest 0 pZero true true "t2" dbC7).2.daily_digest_items ≠
      dbC7.daily_digest_items := by
  refine ⟨?_, ?_, ?_⟩ <;> decide

/-- C7 (amended): idempotence short-circuit.  If after the optional force
reset `curCount ≥ top_n` or (`curCount > 0` and `refill = force = false`),
then the call returns `changed = false` and inserts nothing; the membership
rows equal the post-force-reset state: with `force = false` (and in
particular whenever `top_n ≥ 1`, which makes the condition incompatible
with `force = true`) they are exactly as before the call, while with
`force = true` (possible only for `top_n = 0`) they are the rows of the
other digests only. -/
theorem short_circuit_frame (db : DB) (day : Int) (p : DigestParams)
    (refill force : Bool) (now : String)
    (hc : fillCond day p refill force now db) :
    (create_or_refill_daily_digest day p refill force now db).1.changed = false ∧
    (force = false →
      (create_or_refill_daily_digest day p refill force now db).2.daily_digest_items =
        db.daily_digest_items) ∧
    (force = true →
      (create_or_refill_daily_digest day p refill force now db).2.daily_digest_items =
        db.daily_digest_items.filter
          (fun r => !(r.digest_id == fillDigestId day p now db))) ∧
    (1 ≤ p.top_n →
      (create_or_refill_daily_digest day p refill force now db).2.daily_digest_items =
        db.daily_digest_items) := by
  obtain ⟨hch, hdb⟩ := fill_sc day p refill force now db hc
  have hForceFalse : force = false →
      (create_or_refill_daily_digest day p refill force now db).2.daily_digest_items =
        db.daily_digest_items := by
    intro hf
    subst hf
    rw [hdb]
    unfold fillDB2
    simp only [Bool.false_eq_true, if_false]
    exact (ensure_frame day p now db).2.2.1
  refine ⟨hch, hForceFalse, ?_, ?_⟩
  · intro hf
    subst hf
    rw [hdb]
    unfold fillDB2
    simp only [eq_self_iff_true, if_true]
    unfold forceReset
    simp only []
    rw [(ensure_frame day p now db).2.2.1]
  · intro htop
    by_cases hf : force = true
    · subst hf
      unfold fillCond fillCur at hc
      simp only [eq_self_iff_true, if_true] at hc
      rcases hc with hc | hc
      · omega
      · exact absurd hc.2.2 (by simp)
    · have hf' : force = false := by
        rcases force with _ | _
        · rfl
        · exact absurd rfl hf
      exact hForceFalse hf'

/-- C7 witness: the short circuit at a full digest (`top_n = 1`,
one item present, `force = false`). -/
theorem short_circuit_frame_witness :
    fillCond 0 pTest true false "t2" dbC7 ∧
    ((create_or_refill_daily_digest 0 pTest true false "t2" dbC7).1.changed = false ∧
    (false = false →
      (create_or_refill_daily_digest 0 pTest true false "t2" dbC7).2.daily_digest_items =
        dbC7.daily_digest_items) ∧
    (false = true →
      (create_or_refill_daily_digest 0 pTest true false "t2" dbC7).2.daily_digest_items =
        dbC7.daily_digest_items.filter
          (fun r => !(r.digest_id == fillDigestId 0 pTest "t2" dbC7))) ∧
    (1 ≤ pTest.top_n →
      (create_or_refill_daily_digest 0 pTest true false "t2" dbC7).2.daily_digest_items =
        dbC7.daily_digest_items)) :=
  ⟨by decide, short_circuit_frame dbC7 0 pTest true false "t2" (by decide)⟩

/-! ### C9: the API validation layer (`daily_digest_create` of `main.py`) -/

/-- The raw query parameters of `POST /digests/daily/create` before
FastAPI validation. -/
structure RawQuery where
  day : String
  top_n : Int
  prefer_days : Int
  max_lookback_days : Int
  min_interest : Int
  min_dfo : Int
  min_business : Int
  exclude_war : Bool
  only_dfo_business : Bool
  refill : Bool
  force : Bool
deriving DecidableEq, Repr

/-- The code-point ranges of Unicode general category Nd (decimal digits,
Unicode 15.0): the character class `\d` of the endpoint's `pattern` regex.
Python's `re` on `str` patterns and pydantic v2's Rust regex engine are both
Unicode-aware by default, so `\d` matches far more than ASCII `0`–`9` —
e.g. the Arabic-Indic digits U+0660–U+0669. -/
def ND_RANGES : List (Nat × Nat) :=
  [(0x30, 0x39), (0x660, 0x669), (0x6F0, 0x6F9), (0x7C0, 0x7C9),
   (0x966, 0x96F), (0x9E6, 0x9EF), (0xA66, 0xA6F), (0xAE6, 0xAEF),
   (0xB66, 0xB6F), (0xBE6, 0xBEF), (0xC66, 0xC6F), (0xCE6, 0xCEF),
   (0xD66, 0xD6F), (0xDE6, 0xDEF), (0xE50, 0xE59), (0xED0, 0xED9),
   (0xF20, 0xF29), (0x1040, 0x1049), (0x1090, 0x1099), (0x17E0, 0x17E9),
   (0x1810, 0x1819), (0x1946, 0x194F), (0x19D0, 0x19D9), (0x1A80, 0x1A89),
   (0x1A90, 0x1A99), (0x1B50, 0x1B59), (0x1BB0, 0x1BB9), (0x1C40, 0x1C49),
   (0x1C50, 0x1C59), (0xA620, 0xA629), (0xA8D0, 0xA8D9), (0xA900, 0xA909),
   (0xA9D0, 0xA9D9), (0xA9F0, 0xA9F9), (0xAA50, 0xAA59), (0xABF0, 0xABF9),
   (0xFF10, 0xFF19), (0x104A0, 0x104A9), (0x10D30, 0x10D39),
   (0x11066, 0x1106F), (0x110F0, 0x110F9), (0x11136, 0x1113F),
   (0x111D0, 0x111D9), (0x112F0, 0x112F9), (0x11450, 0x11459),
   (0x114D0, 0x114D9), (0x11650, 0x11659), (0x116C0, 0x116C9),
   (0x11730, 0x11739), (0x118E0, 0x118E9), (0x11950, 0x11959),
   (0x11C50, 0x11C59), (0x11D50, 0x11D59), (0x11DA0, 0x11DA9),
   (0x11F50, 0x11F59), (0x16A60, 0x16A69), (0x16AC0, 0x16AC9),
   (0x16B50, 0x16B59), (0x1D7CE, 0x1D7FF), (0x1E140, 0x1E149),
   (0x1E2F0, 0x1E2F9), (0x1E4F0, 0x1E4F9), (0x1E950, 0x1E959),
   (0x1FBF0, 0x1FBF9)]

/-- A Unicode decimal digit (category Nd): what `\d` matches in the
endpoint's pattern.  Strictly wider than ASCII `Char.isDigit`. -/
def isNdDigit (c : Char) : Bool :=
  ND_RANGES.any (fun r => r.1 ≤ c.toNat && c.toNat ≤ r.2)

/-- The FastAPI `pattern` regex `^\d{4}-\d{2}-\d{2}$` on `day`: four Unicode
decimal digits, dash, two, dash, two.  A string can satisfy this pattern
without being an ASCII `YYYY-MM-DD` date. -/
def dayPatternOk (s : String) : Bool :=
  match s.toList with
  | [y1, y2, y3, y4, d1, m1, m2, d2, a1, a2] =>
    isNdDigit y1 && isNdDigit y2 && isNdDigit y3 && isNdDigit y4 && d1 == '-' &&
    isNdDigit m1 && isNdDigit m2 && d2 == '-' && isNdDigit a1 && isNdDigit a2
  | _ => false

/-- The FastAPI `ge`/`le` range constraints on the numeric query params of
`daily_digest_create`. -/
def paramsOk (q : RawQuery) : Bool :=
  (1 ≤ q.top_n && q.top_n ≤ 20) && (1 ≤ q.prefer_days && q.prefer_days ≤ 7) &&
  (1 ≤ q.max_lookback_days && q.max_lookback_days ≤ 365) &&
  (0 ≤ q.min_interest && q.min_interest ≤ 100) &&
  (0 ≤ q.min_dfo && q.min_dfo ≤ 10) && (0 ≤ q.min_business && q.min_business ≤ 10)

/-- Embedding of a day string into the model's abstract day keys, under
which `ensure_daily_digest` stores the digest row (the source keys the row
by the raw string; the model keys it by this number).  On ASCII
`YYYY-MM-DD` strings it is the digit string read as a number — strictly
monotone in the date, which is all the core model assumes about days, and
disjoint from the keys of non-ASCII pattern-valid strings, whose digit
code points exceed 9 and push the fold past eight decimal places. -/
def isoToNum (s : String) : Int :=
  (s.toList.filter (fun c => !(c == '-'))).foldl
    (fun acc c => acc * 10 + ((c.toNat : Int) - 48)) 0

/-- Length of month `m` of year `y` under the proleptic Gregorian rules
that `datetime.date` uses. -/
def daysInMonth (y m : Nat) : Nat :=
  if m == 2 then
    if (y % 4 == 0 && y % 100 != 0) || y % 400 == 0 then 29 else 28
  else if m == 4 || m == 6 || m == 9 || m == 11 then 30 else 31

/-- `date.fromisoformat` as `_parse_day` applies it (daily_digests.py
line 40): succeeds exactly on ASCII digits forming a calendar-valid
`YYYY-MM-DD` date with year 1–9999, returning the model's day key
`isoToNum s`.  Any other string — including pattern-valid strings with
non-ASCII digits or with impossible month/day fields — makes it raise
`ValueError`. -/
def parseIsoDay (s : String) : Option Int :=
  match s.toList with
  | [y1, y2, y3, y4, h1, m1, m2, h2, d1, d2] =>
    if y1.isDigit && y2.isDigit && y3.isDigit && y4.isDigit && h1 == '-' &&
        m1.isDigit && m2.isDigit && h2 == '-' && d1.isDigit && d2.isDigit then
      let y := ((y1.toNat - 48) * 10 + (y2.toNat - 48)) * 100 +
        ((y3.toNat - 48) * 10 + (y4.toNat - 48))
      let m := (m1.toNat - 48) * 10 + (m2.toNat - 48)
      let d := (d1.toNat - 48) * 10 + (d2.toNat - 48)
      if (1 ≤ y && y ≤ 9999) && (1 ≤ m && m ≤ 12) &&
          (1 ≤ d && d ≤ daysInMonth y m) then some (isoToNum s) else none
    else none
  | _ => none

/-- The `DigestParams` the handler builds from the validated query
parameters (main.py lines 288–297). -/
def qParams (q : RawQuery) : DigestParams :=
  { top_n := q.top_n.toNat, prefer_days := q.prefer_days.toNat,
    max_lookback_days := q.max_lookback_days.toNat,
    min_interest := q.min_interest, min_dfo := q.min_dfo,
    min_business := q.min_business, exclude_war := q.exclude_war,
    only_dfo_business := q.only_dfo_business }

/-- The observable outcome of a `POST /digests/daily/create` request: a
422 validation rejection issued before the handler body runs, a 500 from
the `ValueError` that `_parse_day` raises inside the handler, or the
handler's fill result. -/
inductive ApiResult where
  | validation_error : ApiResult
  | server_error : ApiResult
  | ok : FillOut → ApiResult
deriving DecidableEq, Repr

/-- `daily_digest_create` of `main.py` (lines 268–298), error path
included.  FastAPI rejects the request before the handler body runs unless
the `day` pattern and every range constraint hold.  If they do, the handler
calls `create_or_refill_daily_digest`, whose first action is
`ensure_daily_digest` on the raw day string — creating and COMMITTING the
digest row if absent — followed, when `force` is set, by the committed
force reset; only after that does the first `_parse_day` call (inside
`compute_diagnostics`, `_select_prefer` or `_select_fallback`, every
continuation passes through one of them) parse the day.  So for a
pattern-valid day string that `date.fromisoformat` rejects the handler
raises `ValueError` after those state changes: the model returns
`server_error` together with the post-ensure (and post-reset) state. -/
def daily_digest_create (q : RawQuery) (now : String) (db : DB) :
    ApiResult × DB :=
  if dayPatternOk q.day && paramsOk q then
    match parseIsoDay q.day with
    | some d =>
      let r := create_or_refill_daily_digest d (qParams q) q.refill q.force now db
      (ApiResult.ok r.1, r.2)
    | none =>
      let e := ensure_daily_digest (isoToNum q.day) (qParams q) now db
      let db2 := if q.force then forceReset e.1.id now e.2 else e.2
      (ApiResult.server_error, db2)
  else (ApiResult.validation_error, db)

/-- A request with a malformed day string (single-digit month): it fails
the endpoint pattern even with Unicode digits. -/
def qBad : RawQuery :=
  { day := "2024-6-01", top_n := 5, prefer_days := 2, max_lookback_days := 60,
    min_interest := 5, min_dfo := 2, min_business := 2, exclude_war := true,
    only_dfo_business := true, refill := true, force := false }

/-- A request whose day string is spelled with Arabic-Indic digits
(U+0660–U+0669): it matches the endpoint's `^\d{4}-\d{2}-\d{2}$` pattern,
yet `date.fromisoformat` rejects it. -/
def qUni : RawQuery :=
  { day := "٢٠٢٤-٠٦-٠١", top_n := 5, prefer_days := 2, max_lookback_days := 60,
    min_interest := 5, min_dfo := 2, min_business := 2, exclude_war := true,
    only_dfo_business := true, refill := true, force := false }

/-- C9 counterexample: the day string `"٢٠٢٤-٠٦-٠١"` is not of the form
`YYYY-MM-DD` — `date.fromisoformat` raises on it — so by the claim the
request should be rejected before any query runs and no digest row should
be created.  But `\d` in the endpoint's pattern matches any Unicode decimal
digit, so validation passes, the handler runs, `ensure_daily_digest`
inserts and commits a digest row, and only then does `_parse_day` raise:
on the empty store the request errors with a digest row created. -/
theorem validation_before_effects_counterexample :
    dayPatternOk qUni.day = true ∧ paramsOk qUni = true ∧
    parseIsoDay qUni.day = none ∧
    (daily_digest_create qUni "t" db0).1 = ApiResult.server_error ∧
    db0.daily_digests.length = 0 ∧
    (daily_digest_create qUni "t" db0).2.daily_digests.length = 1 := by
  refine ⟨?_, ?_, ?_, ?_, ?_, ?_⟩ <;> decide

/-- C9 (amended): validation before effects holds at the pattern level.
For every day string failing the endpoint's `\d{4}-\d{2}-\d{2}` pattern
(with `\d` a Unicode decimal digit) and for every out-of-range parameter,
the request is rejected with a validation error before any query runs: the
state — in particular the digest table — is exactly the input state.  A day
string can pass the pattern while not being of the form `YYYY-MM-DD`
(non-ASCII digits, or impossible month/day fields); such a request reaches
the handler, which creates/commits the digest row via `ensure_daily_digest`
and performs the force reset if requested, before day parsing fails with a
server error. -/
theorem validation_before_effects (q : RawQuery) (now : String) (db : DB) :
    ((dayPatternOk q.day = false ∨ paramsOk q = false) →
      daily_digest_create q now db = (ApiResult.validation_error, db) ∧
      (daily_digest_create q now db).2.daily_digests = db.daily_digests) ∧
    (dayPatternOk q.day = true → paramsOk q = true →
      parseIsoDay q.day = none →
      daily_digest_create q now db =
        (ApiResult.server_error,
          if q.force then
            forceReset (ensure_daily_digest (isoToNum q.day) (qParams q) now db).1.id
              now (ensure_daily_digest (isoToNum q.day) (qParams q) now db).2
          else (ensure_daily_digest (isoToNum q.day) (qParams q) now db).2)) := by
  constructor
  · intro h
    have hcond : (dayPatternOk q.day && paramsOk q) = false := by
      rcases h with h | h <;> simp [h]
    unfold daily_digest_create
    rw [hcond]
    simp only [Bool.false_eq_true, if_false]
    constructor <;> first | rfl | trivial
  · intro h1 h2 h3
    unfold daily_digest_create
    rw [h1, h2, h3]
    rfl

/-- C9 witness: the amended theorem applied concretely — the
pattern-malformed request `qBad` is rejected with the state untouched, and
the pattern-valid but unparseable request `qUni` errors in the state left
by `ensure_daily_digest`. -/
theorem validation_before_effects_witness :
    (daily_digest_create qBad "t" dbAB = (ApiResult.validation_error, dbAB) ∧
      (daily_digest_create qBad "t" dbAB).2.daily_digests = dbAB.daily_digests) ∧
    daily_digest_create qUni "t" db0 =
      (ApiResult.server_error,
        (ensure_daily_digest (isoToNum qUni.day) (qParams qUni) "t" db0).2) :=
  ⟨(validation_before_effects qBad "t" dbAB).1 (Or.inl (by decide)),
    (validation_before_effects qUni "t" db0).2 (by decide) (by decide) (by decide)⟩

/-! ### C5 -/

/-- C5 counterexample: item 1 is exclusive to day 0's digest before the
force rebuild, yet after `create_or_refill_daily_digest(day 0, force=true)`
it is used again — the same call's refill immediately re-claims it — so it
is not an eligible candidate for any digest, and a subsequent fill for day
1 does not claim it (item 1 stays in digest 1). -/
theorem force_release_counterexample :
    (∀ r ∈ dbC7.daily_digest_items, r.item_id = 1 → r.digest_id = 1) ∧
    usedItem (create_or_refill_daily_digest 0 pTest true true "t2" dbC7).2 1 = true ∧
    (∀ r ∈ (create_or_refill_daily_digest 1 pTest true false "t3"
        (create_or_refill_daily_digest 0 pTest true true "t2" dbC7).2).2.daily_digest_items,
      r.item_id = 1 → r.digest_id = 1) := by
  refine ⟨?_, ?_, ?_⟩ <;> decide

/-- C5 (amended): force rebuild releases items.  After a `force=true` call,
any item that previously belonged only to the target day's digest either
carries no membership row at all (it is eligible again for any digest) or
was re-inserted by this very call's own refill — its only rows then belong
to the target digest and bear this call's `added_at`.  Moreover the force
path is the only membership-deleting path: a `force=false` call preserves
every existing membership row, and `ensure_daily_digest` never touches
membership. -/
theorem force_release (db : DB) (day : Int) (p : DigestParams) (refill : Bool)
    (now : String) (hwf : WF db) :
    (∀ i : Nat,
      (∀ r ∈ db.daily_digest_items, r.item_id = i →
        r.digest_id = fillDigestId day p now db) →
      ∀ r ∈ (create_or_refill_daily_digest day p refill true now db).2.daily_digest_items,
        r.item_id = i →
          (r.digest_id = fillDigestId day p now db ∧ r.added_at = now)) ∧
    (∀ r ∈ db.daily_digest_items,
      r ∈ (create_or_refill_daily_digest day p refill false now db).2.daily_digest_items) ∧
    ((ensure_daily_digest day p now db).2.daily_digest_items = db.daily_digest_items) := by
  refine ⟨?_, ?_, (ensure_frame day p now db).2.2.1⟩
  · intro i hexc r hr hri
    have hgone : ∀ r' ∈ (fillDB2 day p true now db).daily_digest_items,
        r'.item_id ≠ i := by
      intro r' hr' hri'
      unfold fillDB2 at hr'
      simp only [eq_self_iff_true, if_true] at hr'
      unfold forceReset at hr'
      rw [List.mem_filter] at hr'
      have hmem : r' ∈ db.daily_digest_items := by
        have h1 := hr'.1
        rw [(ensure_frame day p now db).2.2.1] at h1
        exact h1
      have hgid := hexc r' hmem hri'
      have h2 := hr'.2
      rw [Bool.not_eq_true', beq_eq_false_iff_ne] at h2
      exact h2 hgid
    by_cases hc : fillCond day p refill true now db
    · rw [(fill_sc day p refill true now db hc).2] at hr
      exact absurd hri (hgone r hr)
    · obtain ⟨_, _, hitems, _, _, _, _⟩ :=
        fill_ins day p refill true now db hwf _ _ _ _ rfl rfl rfl rfl hc
      rw [hitems] at hr
      rcases List.mem_append.mp hr with hr1 | hr1
      · exact absurd hri (hgone r hr1)
      · obtain ⟨h1, h2, _, _⟩ := rankedFrom_mem _ _ _ _ _ r hr1
        exact ⟨h1, h2⟩
  · intro r hr
    by_cases hc : fillCond day p refill false now db
    · rw [(fill_sc day p refill false now db hc).2]
      unfold fillDB2
      simp only [Bool.false_eq_true, if_false]
      rw [(ensure_frame day p now db).2.2.1]
      exact hr
    · obtain ⟨_, _, hitems, _, _, _, _⟩ :=
        fill_ins day p refill false now db hwf _ _ _ _ rfl rfl rfl rfl hc
      rw [hitems]
      apply List.mem_append_left
      unfold fillDB2
      simp only [Bool.false_eq_true, if_false]
      rw [(ensure_frame day p now db).2.2.1]
      exact hr

/-- C5 witness: the amended statement at the populated one-digest state. -/
theorem force_release_witness :
    (∀ i : Nat,
      (∀ r ∈ dbC7.daily_digest_items, r.item_id = i →
        r.digest_id = fillDigestId 0 pTest "t2" dbC7) →
      ∀ r ∈ (create_or_refill_daily_digest 0 pTest true true "t2" dbC7).2.daily_digest_items,
        r.item_id = i →
          (r.digest_id = fillDigestId 0 pTest "t2" dbC7 ∧ r.added_at = "t2")) ∧
    (∀ r ∈ dbC7.daily_digest_items,
      r ∈ (create_or_refill_daily_digest 0 pTest true false "t2" dbC7).2.daily_digest_items) ∧
    ((ensure_daily_digest 0 pTest "t2" dbC7).2.daily_digest_items =
      dbC7.daily_digest_items) :=
  force_release dbC7 0 pTest true "t2"
    (reachable_wf (Reachable.fill_step 0 pTest true false "t"
      (Reachable.init [itmA, itmB] [anA, anB] (by decide))))

/-! ### C4 -/

theorem select_prefer_all {day : Int} {p : DigestParams} {need : Nat} {db : DB}
    (h : (select_prefer day p need db).length < need) :
    ∀ c ∈ preferCands day p db, c ∈ select_prefer day p need db := by
  intro c hcp
  unfold select_prefer at *
  rw [List.length_take] at h
  have hlen : (sortCands (preferCands day p db)).length ≤ need := by omega
  rw [List.take_of_length_le hlen]
  exact mem_sortCands.mpr hcp

theorem select_fallback_all {day : Int} {p : DigestParams} {need : Nat} {db : DB}
    (h : (select_fallback day p need db).length < need) :
    ∀ c ∈ fallbackCands day p db, c ∈ select_fallback day p need db := by
  intro c hcp
  unfold select_fallback at *
  rw [List.length_take] at h
  have hlen : (sortCands (fallbackCands day p db)).length ≤ need := by omega
  rw [List.take_of_length_le hlen]
  exact mem_sortCands.mpr hcp

/-- C4: two-phase preference.  In the selection phase the preferred-window
query runs first with limit `need`; backfill is consulted only when it
returned fewer than `need` rows, with limit the remaining shortage.  When
no shortage occurs the picked list is the preferred rows alone; on a
shortage every preferred-window candidate is picked (the preferred phase
runs to exhaustion before backfill, so a preferred candidate always beats
any backfill candidate regardless of interest score), every backfill row
drawn is picked after them, the backfill rows drawn dominate every
non-drawn backfill candidate in the interest-then-recency order, and
exactly `min(shortage, pool size)` backfill rows are drawn. -/
theorem two_phase_preference (day : Int) (p : DigestParams) (need : Nat) (db : DB)
    (hneed : 0 < need) :
    (need ≤ (select_prefer day p need db).length →
      pickedList day p need db = select_prefer day p need db) ∧
    ((select_prefer day p need db).length < need →
      (∀ x ∈ preferCands day p db, x ∈ pickedList day p need db) ∧
      (pickedList day p need db = select_prefer day p need db ++
        select_fallback day p (need - (select_prefer day p need db).length) db) ∧
      (∀ y ∈ select_fallback day p (need - (select_prefer day p need db).length) db,
        ∀ z ∈ fallbackCands day p db,
          z ∉ select_fallback day p (need - (select_prefer day p need db).length) db →
          candBefore y z = true) ∧
      (select_fallback day p (need - (select_prefer day p need db).length) db).length =
        min (need - (select_prefer day p need db).length)
          (fallbackCands day p db).length) := by
  constructor
  · intro hfull
    simp only [pickedList]
    rw [if_pos hneed]
    have h0 : need - (select_prefer day p need db).length = 0 := by omega
    rw [h0]
    simp
  · intro hshort
    have hpos : 0 < need - (select_prefer day p need db).length := by omega
    have hpicked : pickedList day p need db = select_prefer day p need db ++
        select_fallback day p (need - (select_prefer day p need db).length) db := by
      simp only [pickedList]
      rw [if_pos hneed, if_pos hpos]
    refine ⟨?_, hpicked, ?_, ?_⟩
    · intro x hx
      rw [hpicked]
      exact List.mem_append_left _ (select_prefer_all hshort x hx)
    · intro y hy z hz hzn
      unfold select_fallback at hy hzn
      exact take_dominates _ hy hz hzn
    · unfold select_fallback
      rw [List.length_take]
      have : (sortCands (fallbackCands day p db)).length =
          (fallbackCands day p db).length :=
        (sortCands_perm (fallbackCands day p db)).length_eq
      rw [this]

/-- Backfill shortage scenario: one eligible preferred-window item and
three eligible backfill items. -/
def itmF1 : Item :=
  { id := 2, source_name := "s", url := "u2", title := "b", body := "",
    published_at := some (tsAt (-3)), fetched_at := tsAt (-3),
    business_score := 2, dfo_score := 2 }

def itmF2 : Item :=
  { id := 3, source_name := "s", url := "u3", title := "c", body := "",
    published_at := some (tsAt (-4)), fetched_at := tsAt (-4),
    business_score := 2, dfo_score := 2 }

def itmF3 : Item :=
  { id := 4, source_name := "s", url := "u4", title := "d", body := "",
    published_at := some (tsAt (-6)), fetched_at := tsAt (-6),
    business_score := 2, dfo_score := 2 }

def anF1 : Analysis :=
  { id := 2, item_id := 2, interest_score := 9, is_dfo_business := true,
    title_short := "", bulletin := "", summary := "", why := "" }

def anF2 : Analysis :=
  { id := 3, item_id := 3, interest_score := 8, is_dfo_business := true,
    title_short := "", bulletin := "", summary := "", why := "" }

def anF3 : Analysis :=
  { id := 4, item_id := 4, interest_score := 7, is_dfo_business := true,
    title_short := "", bulletin := "", summary := "", why := "" }

def pShort : DigestParams :=
  { top_n := 3, prefer_days := 2, max_lookback_days := 30, min_interest := 5,
    min_dfo := 2, min_business := 2, exclude_war := true, only_dfo_business := true }

def dbShort : DB :=
  { items := [itmA, itmF1, itmF2, itmF3], llm_analyses := [anA, anF1, anF2, anF3],
    daily_digests := [], daily_digest_items := [], next_digest_id := 1,
    next_digest_item_id := 1 }

/-- C4 witness.  General statement applied at the spec's preference
scenario; additionally, the two evaluated scenarios of the spec: item A
(published on the digest day, interest 5) beats item B (five days older,
interest 9) for `top_n = 1`, and with `top_n = 3`, one preferred item and
three backfill items, the digest receives the preferred item plus the
top-2 backfill items by interest. -/
theorem two_phase_preference_witness :
    (0 : Nat) < 1 ∧
    ((1 ≤ (select_prefer 0 pTest 1 dbAB).length →
      pickedList 0 pTest 1 dbAB = select_prefer 0 pTest 1 dbAB) ∧
    ((select_prefer 0 pTest 1 dbAB).length < 1 →
      (∀ x ∈ preferCands 0 pTest dbAB, x ∈ pickedList 0 pTest 1 dbAB) ∧
      (pickedList 0 pTest 1 dbAB = select_prefer 0 pTest 1 dbAB ++
        select_fallback 0 pTest (1 - (select_prefer 0 pTest 1 dbAB).length) dbAB) ∧
      (∀ y ∈ select_fallback 0 pTest (1 - (select_prefer 0 pTest 1 dbAB).length) dbAB,
        ∀ z ∈ fallbackCands 0 pTest dbAB,
          z ∉ select_fallback 0 pTest (1 - (select_prefer 0 pTest 1 dbAB).length) dbAB →
          candBefore y z = true) ∧
      (select_fallback 0 pTest (1 - (select_prefer 0 pTest 1 dbAB).length) dbAB).length =
        min (1 - (select_prefer 0 pTest 1 dbAB).length)
          (fallbackCands 0 pTest dbAB).length)) ∧
    ((create_or_refill_daily_digest 0 pTest true false "t" dbAB).2.daily_digest_items.map
      (fun r => r.item_id)) = [1] ∧
    ((create_or_refill_daily_digest 0 pShort true false "t" dbShort).2.daily_digest_items.map
      (fun r => (r.rank, r.item_id))) = [(1, 1), (2, 2), (3, 3)] :=
  ⟨by decide, two_phase_preference 0 pTest 1 dbAB (by decide), by decide, by decide⟩

/-! ### C8 -/

/-- The key the ORDER BY clause sorts on: `(interest_score,
COALESCE(published_at, fetched_at))`. -/
def candKey (c : Cand) : Int × Timestamp := (c.anal.interest_score, coalesceTs c.item)

/-- Specification-side reading of the preferred-window query's `ORDER BY`:
the engine may return ANY ordering of the preferred-window candidate pool
that is nonincreasing in the ORDER BY key — the query text itself fixes no
more.  (The executable model `select_prefer` realises one such ordering.) -/
def IsPreferOrdering (day : Int) (p : DigestParams) (db : DB) (l : List Cand) : Prop :=
  l.Perm (preferCands day p db) ∧ l.Sorted candR

theorem sorted_perm_key_inj : ∀ (l1 l2 : List Cand), l1.Perm l2 →
    l1.Sorted candR → l2.Sorted candR →
    (∀ x ∈ l1, ∀ y ∈ l1, candKey x = candKey y → x = y) → l1 = l2 := by
  intro l1
  induction l1 with
  | nil =>
    intro l2 hp _ _ _
    have := hp.length_eq
    simp only [List.length_nil] at this
    exact (List.length_eq_zero.mp this.symm).symm
  | cons a t1 ih =>
    intro l2 hp hs1 hs2 hinj
    rcases l2 with _ | ⟨b, t2⟩
    · have := hp.length_eq
      simp at this
    · have hab : a = b := by
        have hbmem : b ∈ a :: t1 := hp.mem_iff.mpr (List.mem_cons_self b t2)
        have hamem : a ∈ b :: t2 := hp.mem_iff.mp (List.mem_cons_self a t1)
        rcases List.mem_cons.mp hbmem with hcase | hcase
        · exact hcase.symm
        · rcases List.mem_cons.mp hamem with hcase' | hcase'
          · exact hcase'
          · have hab1 : candR a b := (List.sorted_cons.mp hs1).1 b hcase
            have hab2 : candR b a := (List.sorted_cons.mp hs2).1 a hcase'
            have hkey := candBefore_key a b hab1 hab2
            apply hinj a (List.mem_cons_self a t1) b hbmem
            unfold candKey
            rw [hkey.1, hkey.2]
      subst hab
      have hpt : t1.Perm t2 := hp.cons_inv
      have ht := ih t2 hpt (List.sorted_cons.mp hs1).2 (List.sorted_cons.mp hs2).2
        (fun x hx y hy hk =>
          hinj x (List.mem_cons_of_mem a hx) y (List.mem_cons_of_mem a hy) hk)
      rw [ht]

/-- C8 (amended): determinism of selection.  The executable model is a
function of the store state, so two runs on identical states trivially
agree; and whenever no two distinct preferred-window candidates tie on both
ORDER BY keys, the key order alone determines a unique ordering — any two
orderings compatible with the query's ORDER BY coincide, hence so does
every `LIMIT need` prefix.  (With ties the keys do not determine the
selection; see the counterexample.) -/
theorem selection_determinism (day : Int) (p : DigestParams) (db : DB)
    (l1 l2 : List Cand)
    (hinj : ∀ x ∈ preferCands day p db, ∀ y ∈ preferCands day p db,
      candKey x = candKey y → x = y)
    (h1 : IsPreferOrdering day p db l1) (h2 : IsPreferOrdering day p db l2) :
    l1 = l2 ∧ ∀ need : Nat, l1.take need = l2.take need := by
  have heq : l1 = l2 := by
    apply sorted_perm_key_inj l1 l2 (h1.1.trans h2.1.symm) h1.2 h2.2
    intro x hx y hy hk
    exact hinj x (h1.1.subset hx) y (h1.1.subset hy) hk
  exact ⟨heq, fun need => by rw [heq]⟩

/-- Tie fixtures: two distinct items with identical interest score and
identical `COALESCE(published_at, fetched_at)`. -/
def itmY : Item :=
  { id := 2, source_name := "s", url := "u2", title := "y", body := "",
    published_at := some (tsAt 0), fetched_at := tsAt 0,
    business_score := 2, dfo_score := 2 }

def anY : Analysis :=
  { id := 2, item_id := 2, interest_score := 5, is_dfo_business := true,
    title_short := "", bulletin := "", summary := "", why := "" }

def dbTie : DB :=
  { items := [itmA, itmY], llm_analyses := [anA, anY], daily_digests := [],
    daily_digest_items := [], next_digest_id := 1, next_digest_item_id := 1 }

def cY : Cand := { item := itmY, anal := anY }

/-- C8 counterexample: on a store with two distinct candidates that tie on
both ORDER BY keys, both `[cA, cY]` and `[cY, cX]` are orderings compatible
with the query, and their `LIMIT 1` prefixes differ — the candidate
ordering does not determine a unique selection for tie states. -/
theorem selection_determinism_counterexample :
    IsPreferOrdering 0 pTest dbTie [cA, cY] ∧
    IsPreferOrdering 0 pTest dbTie [cY, cA] ∧
    [cA, cY].take 1 ≠ [cY, cA].take 1 := by
  refine ⟨⟨?_, ?_⟩, ⟨?_, ?_⟩, ?_⟩ <;> decide

/-- C8 witness: on the tie-free store `dbAB` the unique-ordering theorem
applies. -/
theorem selection_determinism_witness :
    (∀ x ∈ preferCands 0 pTest dbAB, ∀ y ∈ preferCands 0 pTest dbAB,
      candKey x = candKey y → x = y) ∧
    IsPreferOrdering 0 pTest dbAB [cA] ∧
    ([cA] = [cA] ∧ ∀ need : Nat, [cA].take need = [cA].take need) :=
  ⟨by decide, ⟨by decide, by decide⟩,
    selection_determinism 0 pTest dbAB [cA] [cA] (by decide)
      ⟨by decide, by decide⟩ ⟨by decide, by decide⟩⟩

/-! ### C3 -/

theorem find?_day_map (l : List DigestRow) (f : DigestRow → DigestRow)
    (hday : ∀ r, (f r).day = r.day) (day : Int) :
    (l.map f).find? (fun r => r.day == day) =
      (l.find? (fun r => r.day == day)).map f := by
  induction l with
  | nil => rfl
  | cons a t ih =>
    rw [List.map_cons]
    by_cases hpa : (a.day == day) = true
    · rw [List.find?_cons_of_pos _ (by rw [hday]; exact hpa),
        @List.find?_cons_of_pos _ (fun r => r.day == day) a t hpa]
      rfl
    · rw [List.find?_cons_of_neg _ (by rw [hday]; exact hpa),
        @List.find?_cons_of_neg _ (fun r => r.day == day) a t hpa, ih]

theorem ensure_found {day : Int} {p : DigestParams} {now : String} {db : DB}
    {r : DigestRow}
    (hf : db.daily_digests.find? (fun x => x.day == day) = some r) :
    ensure_daily_digest day p now db = (r, db) := by
  unfold ensure_daily_digest
  rw [hf]

theorem fillDB2_find (day : Int) (p : DigestParams) (force : Bool) (now : String)
    (db : DB) :
    ∃ r : DigestRow, (fillDB2 day p force now db).daily_digests.find?
        (fun x => x.day == day) = some r ∧
      r.id = fillDigestId day p now db ∧ r.day = day := by
  rcases force with _ | _
  · refine ⟨(ensure_daily_digest day p now db).1, ?_, rfl, ensure_day day p now db⟩
    simp only [fillDB2, Bool.false_eq_true, if_false]
    exact ensure_find day p now db
  · simp only [fillDB2, eq_self_iff_true, if_true]
    unfold forceReset
    simp only []
    rw [find?_day_map _ _ (fun r => by split <;> rfl) day, ensure_find day p now db]
    refine ⟨_, rfl, ?_, ?_⟩
    · show ((fun r => if r.id == fillDigestId day p now db then
        { r with updated_at := now, status := "draft", note := "" } else r)
          (ensure_daily_digest day p now db).1).id = fillDigestId day p now db
      simp only []
      split <;> rfl
    · show ((fun r => if r.id == fillDigestId day p now db then
        { r with updated_at := now, status := "draft", note := "" } else r)
          (ensure_daily_digest day p now db).1).day = day
      simp only []
      split <;> exact ensure_day day p now db

theorem fill_find (day : Int) (p : DigestParams) (refill force : Bool) (now : String)
    (db : DB) (hwf : WF db) :
    ∃ r : DigestRow,
      (create_or_refill_daily_digest day p refill force now db).2.daily_digests.find?
        (fun x => x.day == day) = some r ∧
      r.id = fillDigestId day p now db ∧ r.day = day := by
  by_cases hc : fillCond day p refill force now db
  · rw [(fill_sc day p refill force now db hc).2]
    exact fillDB2_find day p force now db
  · obtain ⟨_, _, _, _, _, ⟨st, hdg⟩, _⟩ :=
      fill_ins day p refill force now db hwf _ _ _ _ rfl rfl rfl rfl hc
    rw [hdg, find?_day_map _ _ (fun r => by split <;> rfl) day]
    obtain ⟨r, hfr, hrid, hrday⟩ := fillDB2_find day p force now db
    rw [hfr]
    refine ⟨_, rfl, ?_, ?_⟩
    · show ((fun r => if r.id == fillDigestId day p now db then
        { r with updated_at := now, status := st } else r) r).id =
          fillDigestId day p now db
      simp only []
      split <;> exact hrid
    · show ((fun r => if r.id == fillDigestId day p now db then
        { r with updated_at := now, status := st } else r) r).day = day
      simp only []
      split <;> exact hrday

theorem fill_countFor (db : DB) (day : Int) (p : DigestParams) (refill force : Bool)
    (now : String) (hwf : WF db) (hc : ¬ fillCond day p refill force now db) :
    countFor (create_or_refill_daily_digest day p refill force now db).2
        (fillDigestId day p now db) =
      fillCur day p force now db +
        (pickedList day p (p.top_n - fillCur day p force now db)
          (fillDB2 day p force now db)).length := by
  obtain ⟨_, _, hitems, _, _, _, _⟩ :=
    fill_ins day p refill force now db hwf _ _ _ _ rfl rfl rfl rfl hc
  unfold countFor rowsFor
  rw [hitems, List.filter_append, rankedFrom_filter_gid, List.length_append,
    rankedFrom_length]
  have h1 := fillDB2_countFor day p force now db
  unfold countFor rowsFor at h1
  rw [h1]

theorem rankedFrom_has_item (gid : Nat) (now : String) :
    ∀ (l : List Cand) (nid s : Nat) (c : Cand), c ∈ l →
      ∃ r ∈ rankedFrom gid now nid s l, r.item_id = c.item.id := by
  intro l nid s c hc
  have hm : c.item.id ∈ (rankedFrom gid now nid s l).map (fun r => r.item_id) := by
    rw [rankedFrom_item_map]
    exact List.mem_map.mpr ⟨c, hc, rfl⟩
  obtain ⟨r, hr, hrx⟩ := List.mem_map.mp hm
  exact ⟨r, hr, hrx⟩

theorem pickedList_short {day : Int} {p : DigestParams} {need : Nat} {db : DB}
    (hneed : 0 < need) (hshort : (pickedList day p need db).length < need) :
    (∀ c ∈ preferCands day p db, c ∈ pickedList day p need db) ∧
    (∀ c ∈ fallbackCands day p db, c ∈ pickedList day p need db) := by
  have ha : (select_prefer day p need db).length < need := by
    have hle : (select_prefer day p need db).length ≤
        (pickedList day p need db).length := by
      simp only [pickedList]
      rw [if_pos hneed, List.length_append]
      omega
    omega
  have hpos : 0 < need - (select_prefer day p need db).length := by omega
  have hpicked : pickedList day p need db = select_prefer day p need db ++
      select_fallback day p (need - (select_prefer day p need db).length) db := by
    simp only [pickedList]
    rw [if_pos hneed, if_pos hpos]
  have hfb : (select_fallback day p
      (need - (select_prefer day p need db).length) db).length <
      need - (select_prefer day p need db).length := by
    rw [hpicked, List.length_append] at hshort
    omega
  constructor
  · intro c hcp
    rw [hpicked]
    exact List.mem_append_left _ (select_prefer_all ha c hcp)
  · intro c hcf
    rw [hpicked]
    exact List.mem_append_right _ (select_fallback_all hfb c hcf)

theorem fill_saturates (db : DB) (day : Int) (p : DigestParams) (now : String)
    (hwf : WF db) (hc : ¬ fillCond day p true false now db)
    (hcount : countFor (create_or_refill_daily_digest day p true false now db).2
        (fillDigestId day p now db) < p.top_n) :
    preferCands day p (create_or_refill_daily_digest day p true false now db).2 = [] ∧
    fallbackCands day p (create_or_refill_daily_digest day p true false now db).2 = [] := by
  obtain ⟨_, _, hitems, hfi, hfa, _, _⟩ :=
    fill_ins day p true false now db hwf _ _ _ _ rfl rfl rfl rfl hc
  have hneed : 0 < p.top_n - fillCur day p false now db := by
    unfold fillCond at hc
    push_neg at hc
    omega
  have hcnt := fill_countFor db day p true false now hwf hc
  have hlen : (pickedList day p (p.top_n - fillCur day p false now db)
      (fillDB2 day p false now db)).length <
      p.top_n - fillCur day p false now db := by
    rw [hcnt] at hcount
    omega
  obtain ⟨hallp, hallf⟩ := pickedList_short hneed hlen
  have hused : ∀ c ∈ pickedList day p (p.top_n - fillCur day p false now db)
      (fillDB2 day p false now db),
      usedItem (create_or_refill_daily_digest day p true false now db).2
        c.item.id = true := by
    intro c hcp
    obtain ⟨r, hr, hrx⟩ := rankedFrom_has_item _ _ _ _ _ c hcp
    unfold usedItem
    rw [List.any_eq_true]
    refine ⟨r, ?_, by rw [beq_iff_eq]; exact hrx⟩
    rw [hitems]
    exact List.mem_append_right _ hr
  have hshrink : ∀ c : Cand,
      c ∈ baseCandidates (create_or_refill_daily_digest day p true false now db).2 p →
      c ∈ baseCandidates (fillDB2 day p false now db) p := by
    intro c hcb
    apply baseCandidates_shrink hfi hfa ?_ hcb
    intro i hu
    apply usedItem_mono ?_ hu
    intro r hr
    rw [hitems]
    exact List.mem_append_left _ hr
  constructor
  · rw [List.eq_nil_iff_forall_not_mem]
    intro c hcp
    unfold preferCands at hcp
    rw [List.mem_filter] at hcp
    have hc2 : c ∈ preferCands day p (fillDB2 day p false now db) := by
      unfold preferCands
      rw [List.mem_filter]
      exact ⟨hshrink c hcp.1, hcp.2⟩
    have hu := hused c (hallp c hc2)
    have hnu := baseCandidates_not_used hcp.1
    rw [hu] at hnu
    exact absurd hnu (by simp)
  · rw [List.eq_nil_iff_forall_not_mem]
    intro c hcf
    unfold fallbackCands at hcf
    rw [List.mem_filter] at hcf
    have hc2 : c ∈ fallbackCands day p (fillDB2 day p false now db) := by
      unfold fallbackCands
      rw [List.mem_filter]
      exact ⟨hshrink c hcf.1, hcf.2⟩
    have hu := hused c (hallf c hc2)
    have hnu := baseCandidates_not_used hcf.1
    rw [hu] at hnu
    exact absurd hnu (by simp)

theorem pickedList_of_empty {day : Int} {p : DigestParams} {need : Nat} {db : DB}
    (h1 : preferCands day p db = []) (h2 : fallbackCands day p db = []) :
    pickedList day p need db = [] := by
  simp only [pickedList, select_prefer, select_fallback, h1, h2]
  unfold sortCands
  simp [List.insertionSort]

/-- C3 counterexample: on an empty store (no candidates at all, so the
digest stays below `top_n`), the second identical refill call reports
`changed = true` again, not `changed = false` as claimed — the code sets
`changed=True` whenever the short-circuit is not taken, even when it
inserts nothing. -/
theorem refill_idempotence_counterexample :
    (create_or_refill_daily_digest 0 pTest true false "t2"
      (create_or_refill_daily_digest 0 pTest true false "t" db0).2).1.changed = true := by
  decide

/-- C3 (amended): idempotence of refill.  Calling
`create_or_refill_daily_digest(day, params, refill=true, force=false)`
twice with the stores unchanged never changes membership on the second
call — the digest's item set and ranks, and indeed the whole
`daily_digest_items` table, are identical to the result of the first call —
but the second call reports `changed = false` exactly when the first call
left the digest with at least `top_n` items; when the digest remains
under-filled the second call reports `changed = true` with nothing
inserted. -/
theorem refill_idempotence (db : DB) (day : Int) (p : DigestParams)
    (now now' : String) (hwf : WF db) :
    (create_or_refill_daily_digest day p true false now'
        (create_or_refill_daily_digest day p true false now db).2).2.daily_digest_items =
      (create_or_refill_daily_digest day p true false now db).2.daily_digest_items ∧
    ((create_or_refill_daily_digest day p true false now'
        (create_or_refill_daily_digest day p true false now db).2).1.changed = false ↔
      p.top_n ≤ countFor (create_or_refill_daily_digest day p true false now db).2
        (fillDigestId day p now db)) := by
  have hwf1 : WF (create_or_refill_daily_digest day p true false now db).2 :=
    fill_wf day p true false now db hwf
  obtain ⟨r, hfind, hrid, hrday⟩ := fill_find day p true false now db hwf
  have e1 : ensure_daily_digest day p now'
      (create_or_refill_daily_digest day p true false now db).2 =
      (r, (create_or_refill_daily_digest day p true false now db).2) :=
    ensure_found hfind
  have egid2 : fillDigestId day p now'
      (create_or_refill_daily_digest day p true false now db).2 =
      fillDigestId day p now db := by
    unfold fillDigestId
    rw [e1]
    exact hrid
  have edb22 : fillDB2 day p false now'
      (create_or_refill_daily_digest day p true false now db).2 =
      (create_or_refill_daily_digest day p true false now db).2 := by
    unfold fillDB2
    simp only [Bool.false_eq_true, if_false]
    rw [e1]
  have ecur2 : fillCur day p false now'
      (create_or_refill_daily_digest day p true false now db).2 =
      countFor (create_or_refill_daily_digest day p true false now db).2
        (fillDigestId day p now db) := by
    unfold fillCur
    simp only [Bool.false_eq_true, if_false]
    rw [egid2, e1]
  by_cases hc2 : p.top_n ≤
      countFor (create_or_refill_daily_digest day p true false now db).2
        (fillDigestId day p now db)
  · have hcond2 : fillCond day p true false now'
        (create_or_refill_daily_digest day p true false now db).2 := by
      unfold fillCond
      rw [ecur2]
      exact Or.inl hc2
    obtain ⟨hch, hdb⟩ := fill_sc day p true false now' _ hcond2
    constructor
    · rw [hdb, edb22]
    · rw [hch]
      exact iff_of_true rfl hc2
  · by_cases hc1 : fillCond day p true false now db
    · exfalso
      obtain ⟨_, hdb1⟩ := fill_sc day p true false now db hc1
      have hcf : countFor (create_or_refill_daily_digest day p true false now db).2
          (fillDigestId day p now db) = fillCur day p false now db := by
        rw [hdb1]
        exact fillDB2_countFor day p false now db
      unfold fillCond at hc1
      rcases hc1 with h | h
      · apply hc2
        rw [hcf]
        exact h
      · exact absurd h.2.1 (by simp)
    · have hcount : countFor (create_or_refill_daily_digest day p true false now db).2
          (fillDigestId day p now db) < p.top_n := by omega
      obtain ⟨hp1, hp2⟩ := fill_saturates db day p now hwf hc1 hcount
      have hcond2 : ¬ fillCond day p true false now'
          (create_or_refill_daily_digest day p true false now db).2 := by
        intro hcond
        unfold fillCond at hcond
        rw [ecur2] at hcond
        rcases hcond with h | h
        · omega
        · exact absurd h.2.1 (by simp)
      obtain ⟨hch2, hins2, hitems2, _, _, _, _⟩ :=
        fill_ins day p true false now' _ hwf1 _ _ _ _ rfl rfl rfl rfl hcond2
      have hpicked2 : pickedList day p
          (p.top_n - fillCur day p false now'
            (create_or_refill_daily_digest day p true false now db).2)
          (fillDB2 day p false now'
            (create_or_refill_daily_digest day p true false now db).2) = [] := by
        rw [edb22]
        exact pickedList_of_empty hp1 hp2
      rw [hpicked2, rankedFrom, List.append_nil, edb22] at hitems2
      refine ⟨hitems2, ?_⟩
      rw [hch2]
      constructor
      · intro h
        exact absurd h (by simp)
      · intro h
        exact absurd h hc2

/-- C3 witness: the amended statement instantiated at the two-item store of
the preference scenario (first call fills the digest to `top_n`, so the
second call reports `changed=false`). -/
theorem refill_idempotence_witness :
    (create_or_refill_daily_digest 0 pTest true false "t2"
        (create_or_refill_daily_digest 0 pTest true false "t" dbAB).2).2.daily_digest_items =
      (create_or_refill_daily_digest 0 pTest true false "t" dbAB).2.daily_digest_items ∧
    ((create_or_refill_daily_digest 0 pTest true false "t2"
        (create_or_refill_daily_digest 0 pTest true false "t" dbAB).2).1.changed = false ↔
      pTest.top_n ≤ countFor (create_or_refill_daily_digest 0 pTest true false "t" dbAB).2
        (fillDigestId 0 pTest "t" dbAB)) :=
  refill_idempotence dbAB 0 pTest "t" "t2"
    (reachable_wf (Reachable.init [itmA, itmB] [anA, anB] (by decide)))

end Digests
